import Mathlib

/-!
Verification of the GPSTrackDisplay track pipeline.

This file gives a shallow embedding of the parts of the repository that the
verified properties are about:

* the TrackPoint / Track data model (src/models/track.py),
* the speed derivation pass Track.calculate_speed,
* the windowed temporal average Track.apply_window_averaging and
  Track._average_vertical_speed,
* the flight-recorder decoder (src/parsers/igc_parser.py),
* the route-exchange decoder (src/parsers/gpx_parser.py), and
* the curve renderer x-axis / series pairing and CurveViewer.create_view
  (src/viewer/curve_viewer.py).

Python floats are modelled with exact rationals, and the transcendental
functions of the math library (sin, cos, asin, sqrt, pi) are abstracted as an
oracle parameter: no verified property depends on their numeric values, only
on which arguments the code feeds them and how the results are combined.
-/

/-- One GPS fix; mirrors the TrackPoint dataclass of src/models/track.py.
Optional fields default to none exactly as the dataclass defaults them. -/
structure TrackPoint where
  latitude : ℚ
  longitude : ℚ
  altitude : Option ℚ := none
  timestamp : Option ℚ := none
  pressure_altitude : Option ℚ := none
  vertical_speed_ms : Option ℚ := none
  vertical_speed_mh : Option ℚ := none
  power : Option ℚ := none
  heart_rate : Option ℤ := none
  cadence : Option ℤ := none
  temperature : Option ℚ := none
  speed : Option ℚ := none
deriving DecidableEq, Repr

/-- A GPS track; mirrors the Track class of src/models/track.py. -/
structure Track where
  name : String
  track_type : String
  points : List TrackPoint
  color : Option String := none
deriving DecidableEq, Repr

/-- Abstraction of the Python math library functions used by the haversine
code. The code under verification combines these values arithmetically; no
claim depends on their numeric content. -/
structure MathOracle where
  pi : ℚ
  sin : ℚ → ℚ
  cos : ℚ → ℚ
  asin : ℚ → ℚ
  sqrt : ℚ → ℚ

/-- math.radians: degrees to radians. -/
def MathOracle.radians (F : MathOracle) (x : ℚ) : ℚ :=
  x * F.pi / 180

/-- The haversine central-angle factor c computed identically in
Track.calculate_speed, Track.get_total_distance and the curve viewer
Distance mode: callers multiply it by the chosen Earth radius. -/
def haversineFactor (F : MathOracle) (lon1 lat1 lon2 lat2 : ℚ) : ℚ :=
  let lon1r := F.radians lon1
  let lat1r := F.radians lat1
  let lon2r := F.radians lon2
  let lat2r := F.radians lat2
  let dlon := lon2r - lon1r
  let dlat := lat2r - lat1r
  let a := F.sin (dlat / 2) ^ 2 + F.cos lat1r * F.cos lat2r * F.sin (dlon / 2) ^ 2
  2 * F.asin (F.sqrt a)

/-- Haversine distance in meters between two track points, as inlined in
Track.calculate_speed (Earth radius 6371000 m). -/
def haversineM (F : MathOracle) (p1 p2 : TrackPoint) : ℚ :=
  haversineFactor F p1.longitude p1.latitude p2.longitude p2.latitude * 6371000

/-- One iteration of the consecutive-pair loop of Track.calculate_speed:
given the predecessor point, update the speed of the current point. -/
def calcSpeedPoint (F : MathOracle) (p1 p2 : TrackPoint) : TrackPoint :=
  match p2.speed, p1.timestamp, p2.timestamp with
  | none, some t1, some t2 =>
    let time_diff := t2 - t1
    if 0 < time_diff then
      let distance := haversineM F p1 p2
      let speed_ms := distance / time_diff
      { p2 with speed := some (speed_ms * (3.6 : ℚ)) }
    else p2
  | _, _, _ => p2

/-- The consecutive-pair loop of Track.calculate_speed, threading the updated
predecessor exactly as the Python in-place loop does (the loop reads only the
timestamp and coordinates of the predecessor, which the updates preserve). -/
def speedPassAux (F : MathOracle) : TrackPoint → List TrackPoint → List TrackPoint
  | _, [] => []
  | prev, p :: ps =>
    let p2 := calcSpeedPoint F prev p
    p2 :: speedPassAux F p2 ps

/-- Proof device: the same pass but pairing each point with its original
predecessor; proved equal to speedPassAux below. -/
def speedMap (F : MathOracle) : TrackPoint → List TrackPoint → List TrackPoint
  | _, [] => []
  | prev, p :: ps => calcSpeedPoint F prev p :: speedMap F p ps

/-- Track.calculate_speed of src/models/track.py: fill missing speeds from
consecutive-pair haversine distance over time delta, then copy the second
speed backward to the first point when the first is still unset. The early
returns (fewer than 2 points, or no point needing calculation) are mirrored. -/
def calculateSpeed (F : MathOracle) (t : Track) : Track :=
  if t.points.length < 2 then t
  else if ¬ (∃ p ∈ t.points, p.speed = none ∧ p.timestamp ≠ none) then t
  else
    let pts := match t.points with
      | [] => []
      | p0 :: rest => p0 :: speedPassAux F p0 rest
    let pts2 := match pts with
      | p0 :: p1 :: rest =>
        if p0.speed = none ∧ p1.speed ≠ none then
          { p0 with speed := p1.speed } :: p1 :: rest
        else p0 :: p1 :: rest
      | l => l
    { t with points := pts2 }

/-- calcSpeedPoint only ever touches the speed field. -/
theorem calcSpeedPoint_fields (F : MathOracle) (p1 p2 : TrackPoint) :
    (calcSpeedPoint F p1 p2).latitude = p2.latitude ∧
    (calcSpeedPoint F p1 p2).longitude = p2.longitude ∧
    (calcSpeedPoint F p1 p2).timestamp = p2.timestamp := by
  unfold calcSpeedPoint
  rcases hs : p2.speed with _ | v <;> rcases h1 : p1.timestamp with _ | t1 <;>
    rcases h2 : p2.timestamp with _ | t2 <;> simp [hs, h1, h2] <;> split <;> simp [h2]

/-- calcSpeedPoint depends on the predecessor only through its timestamp and
coordinates. -/
theorem calcSpeedPoint_congr (F : MathOracle) (a b p : TrackPoint)
    (ht : a.timestamp = b.timestamp) (hla : a.latitude = b.latitude)
    (hlo : a.longitude = b.longitude) :
    calcSpeedPoint F a p = calcSpeedPoint F b p := by
  unfold calcSpeedPoint
  rw [ht]
  rcases p.speed with _ | v <;> rcases b.timestamp with _ | t1 <;>
    rcases hp : p.timestamp with _ | t2 <;>
    simp [hp, haversineM, hla, hlo]

theorem speedMap_congr (F : MathOracle) (a b : TrackPoint) (l : List TrackPoint)
    (ht : a.timestamp = b.timestamp) (hla : a.latitude = b.latitude)
    (hlo : a.longitude = b.longitude) :
    speedMap F a l = speedMap F b l := by
  cases l with
  | nil => rfl
  | cons p ps => simp [speedMap, calcSpeedPoint_congr F a b p ht hla hlo]

theorem speedPassAux_eq_speedMap (F : MathOracle) (prev : TrackPoint)
    (l : List TrackPoint) : speedPassAux F prev l = speedMap F prev l := by
  induction l generalizing prev with
  | nil => rfl
  | cons p ps ih =>
    simp only [speedPassAux, speedMap, List.cons.injEq]
    refine ⟨trivial, ?_⟩
    rw [ih (calcSpeedPoint F prev p)]
    obtain ⟨hla, hlo, ht⟩ := calcSpeedPoint_fields F prev p
    exact speedMap_congr F _ _ ps ht hla hlo

theorem speedMap_get_zero (F : MathOracle) (prev p : TrackPoint)
    (ps : List TrackPoint) :
    (speedMap F prev (p :: ps)).get? 0 = some (calcSpeedPoint F prev p) := by
  simp [speedMap]

theorem speedMap_get_succ (F : MathOracle) (prev : TrackPoint)
    (l : List TrackPoint) (j : ℕ) :
    (speedMap F prev l).get? (j + 1) =
      match l.get? j, l.get? (j + 1) with
      | some a, some b => some (calcSpeedPoint F a b)
      | _, _ => none := by
  induction l generalizing prev j with
  | nil => simp [speedMap]
  | cons p ps ih =>
    cases j with
    | zero =>
      cases ps with
      | nil => simp [speedMap]
      | cons q qs => simp [speedMap]
    | succ j =>
      have := ih p j
      simp only [speedMap, List.get?_cons_succ]
      exact this

/-- One step of the backward window scan of Track._average_vertical_speed:
index j contributes to the accumulated (sum, count) over indices below it.
A point with no timestamp is skipped (rest kept); a point whose absolute
time delta strictly exceeds the half window terminates the scan, discarding
everything below it; otherwise the snapshot value at j, when present, is
accumulated. -/
def backStep (pts : List TrackPoint) (orig : List (Option ℚ)) (t0 half : ℚ)
    (j : ℕ) (rest : ℚ × ℕ) : ℚ × ℕ :=
  match pts.get? j with
  | none => rest
  | some other =>
    match other.timestamp with
    | none => rest
    | some tj =>
      if half < |t0 - tj| then (0, 0)
      else
        match orig.getD j none with
        | some v => (rest.1 + v, rest.2 + 1)
        | none => rest

/-- The backward scan of Track._average_vertical_speed from index j down to
index 0, with the break and skip semantics of the Python loop. -/
def backScan (pts : List TrackPoint) (orig : List (Option ℚ)) (t0 half : ℚ) :
    ℕ → ℚ × ℕ
  | 0 => backStep pts orig t0 half 0 (0, 0)
  | j + 1 => backStep pts orig t0 half (j + 1) (backScan pts orig t0 half j)

/-- One step of the forward window scan of Track._average_vertical_speed:
skip a point with no timestamp, terminate with an empty accumulation on the
first point whose absolute time delta strictly exceeds the half window, and
otherwise accumulate the snapshot value when present. -/
def forwardStep (t0 half : ℚ) (other : TrackPoint) (ov : Option ℚ)
    (r : ℚ × ℕ) : ℚ × ℕ :=
  match other.timestamp with
  | none => r
  | some tj =>
    if half < |t0 - tj| then (0, 0)
    else
      match ov with
      | some v => (r.1 + v, r.2 + 1)
      | none => r

/-- The forward scan of Track._average_vertical_speed over the points after
the current index, paired with their snapshot values. -/
def forwardScan (t0 half : ℚ) : List (TrackPoint × Option ℚ) → ℚ × ℕ
  | [] => (0, 0)
  | (other, ov) :: rest => forwardStep t0 half other ov (forwardScan t0 half rest)

/-- The body of the per-point loop of Track._average_vertical_speed: skip
points missing the channel or the timestamp, otherwise average the snapshot
values found by the two scans, and leave the point untouched when the window
count is zero. The m per s companion is recomputed from the new m per h
value divided by 3600, exactly as in the source. -/
def avgPoint (pts : List TrackPoint) (orig : List (Option ℚ)) (half : ℚ)
    (i : ℕ) (p : TrackPoint) : TrackPoint :=
  match p.vertical_speed_mh, p.timestamp with
  | some _, some t0 =>
    let b := backScan pts orig t0 half i
    let f := forwardScan t0 half ((pts.zip orig).drop (i + 1))
    let window_sum := b.1 + f.1
    let window_count := b.2 + f.2
    if 0 < window_count then
      let newv := window_sum / (window_count : ℚ)
      { p with vertical_speed_mh := some newv,
               vertical_speed_ms := some (newv / 3600) }
    else p
  | _, _ => p

/-- Indexed map used to express the per-index point update loop. -/
def mapWithIndex {α β : Type} (f : ℕ → α → β) : ℕ → List α → List β
  | _, [] => []
  | k, a :: as => f k a :: mapWithIndex f (k + 1) as

/-- Track._average_vertical_speed of src/models/track.py. The Python loop
mutates point i in iteration i while reading only the snapshot list, the
timestamps (never written) and the pre-iteration state of point i itself, so
it is equivalent to this per-index parallel update. -/
def averageVerticalSpeed (window_seconds : ℚ) (pts : List TrackPoint) :
    List TrackPoint :=
  if ¬ (∃ p ∈ pts, p.vertical_speed_mh ≠ none ∧ p.timestamp ≠ none) then pts
  else
    let orig := pts.map (fun p => p.vertical_speed_mh)
    let half := window_seconds / 2
    mapWithIndex (fun i p => avgPoint pts orig half i p) 0 pts

/-- Track.apply_window_averaging of src/models/track.py: a 15 second window
applied to the vertical speed channel, skipped for tracks of fewer than 2
points. -/
def applyWindowAveraging (t : Track) : Track :=
  if t.points.length < 2 then t
  else { t with points := averageVerticalSpeed 15 t.points }

/-- List of snapshot values accumulated by one backward-scan step; mirrors
backStep with values collected instead of summed. -/
def backValsStep (pts : List TrackPoint) (orig : List (Option ℚ))
    (t0 half : ℚ) (j : ℕ) (rest : List ℚ) : List ℚ :=
  match pts.get? j with
  | none => rest
  | some other =>
    match other.timestamp with
    | none => rest
    | some tj =>
      if half < |t0 - tj| then []
      else
        match orig.getD j none with
        | some v => v :: rest
        | none => rest

/-- Snapshot values of the in-window points found by the backward scan. -/
def backVals (pts : List TrackPoint) (orig : List (Option ℚ)) (t0 half : ℚ) :
    ℕ → List ℚ
  | 0 => backValsStep pts orig t0 half 0 []
  | j + 1 => backValsStep pts orig t0 half (j + 1) (backVals pts orig t0 half j)

/-- Value-collecting mirror of forwardStep. -/
def forwardValsStep (t0 half : ℚ) (other : TrackPoint) (ov : Option ℚ)
    (rest : List ℚ) : List ℚ :=
  match other.timestamp with
  | none => rest
  | some tj =>
    if half < |t0 - tj| then []
    else
      match ov with
      | some v => v :: rest
      | none => rest

/-- Snapshot values of the in-window points found by the forward scan. -/
def forwardVals (t0 half : ℚ) : List (TrackPoint × Option ℚ) → List ℚ
  | [] => []
  | (other, ov) :: rest => forwardValsStep t0 half other ov (forwardVals t0 half rest)

theorem backStep_eq_vals (pts : List TrackPoint) (orig : List (Option ℚ))
    (t0 half : ℚ) (j : ℕ) (rest : ℚ × ℕ) (restL : List ℚ)
    (h1 : rest.1 = restL.sum) (h2 : rest.2 = restL.length) :
    backStep pts orig t0 half j rest =
      ((backValsStep pts orig t0 half j restL).sum,
       (backValsStep pts orig t0 half j restL).length) := by
  obtain ⟨rs, rc⟩ := rest
  simp only at h1 h2
  subst h1; subst h2
  cases hg : pts[j]? with
  | none => simp [backStep, backValsStep, hg]
  | some other =>
    cases ht : other.timestamp with
    | none => simp [backStep, backValsStep, hg, ht]
    | some tj =>
      by_cases hb : half < |t0 - tj|
      · simp [backStep, backValsStep, hg, ht, hb]
      · cases ho : orig[j]? with
        | none => simp [backStep, backValsStep, List.getD, hg, ht, hb, ho]
        | some w =>
          cases w with
          | none => simp [backStep, backValsStep, List.getD, hg, ht, hb, ho]
          | some v =>
            simp only [backStep, backValsStep, hg, ht, hb, ho, if_false,
              List.get?_eq_getElem?, List.getD, Option.getD_some, List.sum_cons,
              List.length_cons, Prod.mk.injEq]
            exact ⟨by ring, by simp⟩

theorem backScan_eq_vals (pts : List TrackPoint) (orig : List (Option ℚ))
    (t0 half : ℚ) (j : ℕ) :
    backScan pts orig t0 half j =
      ((backVals pts orig t0 half j).sum, (backVals pts orig t0 half j).length) := by
  induction j with
  | zero =>
    unfold backScan backVals
    exact backStep_eq_vals pts orig t0 half 0 (0, 0) [] (by simp) (by simp)
  | succ j ih =>
    unfold backScan backVals
    exact backStep_eq_vals pts orig t0 half (j + 1) _ _
      (by rw [ih]) (by rw [ih])

theorem forwardStep_eq_vals (t0 half : ℚ) (other : TrackPoint) (ov : Option ℚ)
    (r : ℚ × ℕ) (restL : List ℚ)
    (h1 : r.1 = restL.sum) (h2 : r.2 = restL.length) :
    forwardStep t0 half other ov r =
      ((forwardValsStep t0 half other ov restL).sum,
       (forwardValsStep t0 half other ov restL).length) := by
  obtain ⟨rs, rc⟩ := r
  simp only at h1 h2
  subst h1; subst h2
  cases ht : other.timestamp with
  | none => simp [forwardStep, forwardValsStep, ht]
  | some tj =>
    by_cases hb : half < |t0 - tj|
    · simp [forwardStep, forwardValsStep, ht, hb]
    · cases ov with
      | none => simp [forwardStep, forwardValsStep, ht, hb]
      | some v =>
        simp only [forwardStep, forwardValsStep, ht, hb, if_false,
          List.sum_cons, List.length_cons, Prod.mk.injEq]
        exact ⟨by ring, by simp⟩

theorem forwardScan_eq_vals (t0 half : ℚ) (l : List (TrackPoint × Option ℚ)) :
    forwardScan t0 half l =
      ((forwardVals t0 half l).sum, (forwardVals t0 half l).length) := by
  induction l with
  | nil => simp [forwardScan, forwardVals]
  | cons x rest ih =>
    obtain ⟨other, ov⟩ := x
    show forwardStep t0 half other ov (forwardScan t0 half rest) = _
    exact forwardStep_eq_vals t0 half other ov _ _ (by rw [ih]) (by rw [ih])

theorem mapWithIndex_get {α β : Type} (f : ℕ → α → β) (l : List α) (k i : ℕ) :
    (mapWithIndex f k l).get? i = (l.get? i).map (f (k + i)) := by
  induction l generalizing k i with
  | nil => simp [mapWithIndex]
  | cons a as ih =>
    cases i with
    | zero => simp [mapWithIndex]
    | succ i =>
      simp only [mapWithIndex, List.get?_cons_succ]
      have hk : k + 1 + i = k + (i + 1) := by omega
      rw [ih (k + 1) i, hk]

theorem mem_mapWithIndex {α β : Type} (f : ℕ → α → β) (l : List α) (k : ℕ)
    (b : β) (hb : b ∈ mapWithIndex f k l) :
    ∃ i a, l.get? i = some a ∧ b = f (k + i) a := by
  induction l generalizing k with
  | nil => simp [mapWithIndex] at hb
  | cons a as ih =>
    simp only [mapWithIndex, List.mem_cons] at hb
    rcases hb with hb | hb
    · refine ⟨0, a, by simp, ?_⟩
      simpa using hb
    · obtain ⟨i, a2, hget, heq⟩ := ih (k + 1) hb
      refine ⟨i + 1, a2, by simpa using hget, ?_⟩
      rw [heq]
      have hk : k + 1 + i = k + (i + 1) := by omega
      rw [hk]

/-- Vendor extension values attached to a route-exchange point, as the
gpxpy document model exposes them to a consumer that chooses to read them. -/
structure GPXExtensions where
  power : Option ℚ := none
  heart_rate : Option ℤ := none
  cadence : Option ℤ := none
  temperature : Option ℚ := none
  speed : Option ℚ := none
deriving DecidableEq, Repr

/-- One point of a parsed route-exchange XML document (a track, route or
waypoint entry of the gpxpy document model). -/
structure GPXPoint where
  latitude : ℚ
  longitude : ℚ
  elevation : Option ℚ := none
  time : Option ℚ := none
  extensions : GPXExtensions := {}
deriving DecidableEq, Repr

/-- A track segment of the document model. -/
structure GPXSegment where
  points : List GPXPoint
deriving DecidableEq, Repr

/-- A track of the document model. -/
structure GPXTrack where
  segments : List GPXSegment
deriving DecidableEq, Repr

/-- A route of the document model. -/
structure GPXRoute where
  points : List GPXPoint
deriving DecidableEq, Repr

/-- A parsed route-exchange document: tracks, routes and waypoints. -/
structure GPXDoc where
  tracks : List GPXTrack
  routes : List GPXRoute
  waypoints : List GPXPoint
deriving DecidableEq, Repr

/-- The TrackPoint construction of GPXParser.parse: latitude, longitude,
elevation as altitude and time as timestamp; every other field is left at
its dataclass default (none). -/
def gpxMkPoint (p : GPXPoint) : TrackPoint :=
  { latitude := p.latitude
    longitude := p.longitude
    altitude := p.elevation
    timestamp := p.time }

/-- Modelled from the spec: the point construction the decoder section of
the specification describes, which would also carry the vendor extension
fields (power, heart rate, cadence, temperature, speed) when present. The
source parser has no such extraction; this definition exists only to compare
the specified behavior with the embedded source behavior. -/
def gpxMkPointSpec (p : GPXPoint) : TrackPoint :=
  { latitude := p.latitude
    longitude := p.longitude
    altitude := p.elevation
    timestamp := p.time
    power := p.extensions.power
    heart_rate := p.extensions.heart_rate
    cadence := p.extensions.cadence
    temperature := p.extensions.temperature
    speed := p.extensions.speed }

/-- Points extracted from all segments of all tracks, in document order. -/
def gpxTrackPoints (g : GPXDoc) : List TrackPoint :=
  g.tracks.flatMap fun t => t.segments.flatMap fun s => s.points.map gpxMkPoint

/-- Points extracted from all routes, in document order. -/
def gpxRoutePoints (g : GPXDoc) : List TrackPoint :=
  g.routes.flatMap fun r => r.points.map gpxMkPoint

/-- Points extracted from the standalone waypoints. -/
def gpxWaypointPoints (g : GPXDoc) : List TrackPoint :=
  g.waypoints.map gpxMkPoint

/-- GPXParser.parse of src/parsers/gpx_parser.py: extract track points, fall
back to route points when that yields zero points, and to waypoints when the
track is still empty. The track name is the file base name and the type is
gpx. -/
def gpxParse (name : String) (g : GPXDoc) : Track :=
  let pts1 := gpxTrackPoints g
  let pts2 := if pts1.length = 0 then gpxRoutePoints g else pts1
  let pts3 := if pts2.length = 0 then gpxWaypointPoints g else pts2
  { name := name, track_type := "gpx", points := pts3 }

/-- All source points of a document, pooled over the three extraction
levels; used to trace every produced point back to a source point. -/
def gpxAllSourcePoints (g : GPXDoc) : List GPXPoint :=
  (g.tracks.flatMap fun t => t.segments.flatMap fun s => s.points) ++
    (g.routes.flatMap fun r => r.points) ++ g.waypoints

/-- The y-axis channels the curve viewer can select. -/
inductive YAttr
  | altitude
  | speed
  | heart_rate
  | power
  | cadence
  | temperature
deriving DecidableEq, Repr

/-- Attribute access getattr(p, attribute, None) for the chart channels;
integer channels surface as numbers in the chart. -/
def yValue : YAttr → TrackPoint → Option ℚ
  | .altitude, p => p.altitude
  | .speed, p => p.speed
  | .heart_rate, p => p.heart_rate.map fun n => (n : ℚ)
  | .power, p => p.power
  | .cadence, p => p.cadence.map fun n => (n : ℚ)
  | .temperature, p => p.temperature

/-- Cumulative haversine distances for the Distance x-axis mode of
CurveViewer._get_x_values (Earth radius 6371 km), one value per point after
the first. -/
def cumDistAux (F : MathOracle) : TrackPoint → ℚ → List TrackPoint → List ℚ
  | _, _, [] => []
  | prev, acc, p :: ps =>
    let d := acc + haversineFactor F prev.longitude prev.latitude p.longitude p.latitude * 6371
    d :: cumDistAux F p d ps

/-- CurveViewer._get_x_values of src/viewer/curve_viewer.py. Distance mode
returns the cumulative distance list starting at 0 (a singleton 0 for an
empty track, as in the source); Time mode returns minutes since the first
timestamp for the points that have a timestamp, when the first point has
one, and otherwise falls back to the point index; Point Index mode returns
the plain index list. -/
def getXValues (F : MathOracle) (track : Track) (x_axis : String) : List ℚ :=
  if x_axis = "Distance (km)" then
    match track.points with
    | [] => [0]
    | p :: ps => 0 :: cumDistAux F p 0 ps
  else if x_axis = "Time" then
    match track.points with
    | [] => (List.range track.points.length).map fun n => (n : ℚ)
    | p0 :: _ =>
      match p0.timestamp with
      | some base =>
        (track.points.filter fun p => p.timestamp.isSome).map
          fun p => (p.timestamp.getD 0 - base) / 60
      | none => (List.range track.points.length).map fun n => (n : ℚ)
  else (List.range track.points.length).map fun n => (n : ℚ)

/-- CurveViewer._get_y_values: the selected attribute of every point. -/
def getYValues (track : Track) (a : YAttr) : List (Option ℚ) :=
  track.points.map (yValue a)

/-- The filtered series of CurveViewer._create_single_chart: x and y values
are zipped positionally and pairs with a null y value are dropped. -/
def filteredSeries (xs : List ℚ) (ys : List (Option ℚ)) : List (ℚ × ℚ) :=
  (xs.zip ys).filterMap fun xy =>
    match xy.2 with
    | some y => some (xy.1, y)
    | none => none

/-- str(b).lower() for the generated document. -/
def pyBoolStr (b : Bool) : String := if b then "true" else "false"

/-- Serialization of a numeric value into the generated document. The
source prints Python float lists here; exact float rendering is not
representable for rationals, so the rational printer is used. No verified
property depends on this text. -/
def ratRepr (q : ℚ) : String := toString q

/-- Serialization of a list of numbers, as list(xs) prints in the source. -/
def listRepr (l : List ℚ) : String :=
  "[" ++ String.intercalate ", " (l.map ratRepr) ++ "]"

/-- The y-attribute map of CurveViewer._create_single_chart, with the same
default for an unknown chart type. -/
def chartYAttr (chart_type : String) : YAttr × String :=
  if chart_type = "Altitude Profile" then (YAttr.altitude, "Altitude (m)")
  else if chart_type = "Speed Profile" then (YAttr.speed, "Speed (km/h)")
  else if chart_type = "Heart Rate Profile" then (YAttr.heart_rate, "Heart Rate (bpm)")
  else if chart_type = "Power Profile" then (YAttr.power, "Power (W)")
  else if chart_type = "Cadence Profile" then (YAttr.cadence, "Cadence (rpm)")
  else if chart_type = "Temperature Profile" then (YAttr.temperature, "Temperature (C)")
  else (YAttr.altitude, "Value")

/-- One per-track data block of the generated chart script, with the
trailing comma decided by the enumerated index as in the source. -/
def seriesBlock (name : String) (color : Option String) (xs ys : List ℚ)
    (comma : Bool) : String :=
  "\x7b\n" ++
  "  x: " ++ listRepr xs ++ ",\n" ++
  "  y: " ++ listRepr ys ++ ",\n" ++
  "  name: \"" ++ name ++ "\",\n" ++
  "  type: \"scatter\",\n" ++
  "  mode: \"lines\",\n" ++
  "  line: \x7b\x7bcolor: \"" ++ color.getD "#1f77b4" ++ "\", width: 2\x7d\x7d\n" ++
  "\x7d" ++ (if comma then "," else "") ++ "\n"

/-- The per-track loop of the chart builders: tracks with an empty x or y
series, or an empty filtered series, emit nothing. -/
def chartTrackBlocks (F : MathOracle) (total : ℕ) (a : YAttr) (x_axis : String) :
    ℕ → List Track → String
  | _, [] => ""
  | idx, track :: rest =>
    let x_values := getXValues F track x_axis
    let y_values := getYValues track a
    let cont := chartTrackBlocks F total a x_axis (idx + 1) rest
    if x_values = [] ∨ y_values = [] then cont
    else
      let fd := filteredSeries x_values y_values
      if fd = [] then cont
      else
        seriesBlock track.name track.color (fd.map Prod.fst) (fd.map Prod.snd)
          (idx < total - 1) ++ cont

/-- The layout block of a single chart (the doubled braces reproduce the
f-string output of the source). -/
def singleChartLayout (chart_id chart_type x_axis y_label : String)
    (show_grid show_legend : Bool) : String :=
  "var layout_" ++ chart_id ++ " = \x7b\x7b\n" ++
  "  title: \"" ++ chart_type ++ "\",\n" ++
  "  xaxis: \x7b\x7btitle: \"" ++ x_axis ++ "\", showgrid: " ++ pyBoolStr show_grid ++ "\x7d\x7d,\n" ++
  "  yaxis: \x7b\x7btitle: \"" ++ y_label ++ "\", showgrid: " ++ pyBoolStr show_grid ++ "\x7d\x7d,\n" ++
  "  showlegend: " ++ pyBoolStr show_legend ++ ",\n" ++
  "  hovermode: \"x unified\"\n" ++
  "\x7d\x7d;\n"

/-- CurveViewer._create_single_chart. -/
def createSingleChart (F : MathOracle) (tracks : List Track)
    (chart_type x_axis : String) (show_grid show_legend smooth_data : Bool) :
    String :=
  let ya := chartYAttr chart_type
  let chart_id := "chart1"
  "<div class=\"chart-container\"><div id=\"" ++ chart_id ++ "\"></div></div>\n" ++
  "<script>\n" ++
  "var data_" ++ chart_id ++ " = [\n" ++
  chartTrackBlocks F tracks.length ya.1 x_axis 0 tracks ++
  "];\n" ++
  singleChartLayout chart_id chart_type x_axis ya.2 show_grid show_legend ++
  "Plotly.newPlot(\"" ++ chart_id ++ "\", data_" ++ chart_id ++ ", layout_" ++ chart_id ++ ");\n" ++
  "</script>\n"

/-- The layout block of one multi-view panel (fixed height 350). -/
def multiChartLayout (chart_id title x_axis y_label : String)
    (show_grid show_legend : Bool) : String :=
  "var layout_" ++ chart_id ++ " = \x7b\x7b\n" ++
  "  title: \"" ++ title ++ "\",\n" ++
  "  xaxis: \x7b\x7btitle: \"" ++ x_axis ++ "\", showgrid: " ++ pyBoolStr show_grid ++ "\x7d\x7d,\n" ++
  "  yaxis: \x7b\x7btitle: \"" ++ y_label ++ "\", showgrid: " ++ pyBoolStr show_grid ++ "\x7d\x7d,\n" ++
  "  showlegend: " ++ pyBoolStr show_legend ++ ",\n" ++
  "  hovermode: \"x unified\",\n" ++
  "  height: 350\n" ++
  "\x7d\x7d;\n"

/-- One panel of CurveViewer._create_multi_view_charts. -/
def multiChartSection (F : MathOracle) (tracks : List Track) (x_axis : String)
    (show_grid show_legend : Bool) (idx : ℕ) (title : String) (a : YAttr)
    (y_label : String) : String :=
  let chart_id := "chart" ++ toString (idx + 1)
  "<div class=\"chart-container\"><div id=\"" ++ chart_id ++ "\"></div></div>\n" ++
  "<script>\n" ++
  "var data_" ++ chart_id ++ " = [\n" ++
  chartTrackBlocks F tracks.length a x_axis 0 tracks ++
  "];\n" ++
  multiChartLayout chart_id title x_axis y_label show_grid show_legend ++
  "Plotly.newPlot(\"" ++ chart_id ++ "\", data_" ++ chart_id ++ ", layout_" ++ chart_id ++ ");\n" ++
  "</script>\n"

/-- CurveViewer._create_multi_view_charts: four fixed panels. -/
def createMultiViewCharts (F : MathOracle) (tracks : List Track)
    (x_axis : String) (show_grid show_legend smooth_data : Bool) : String :=
  multiChartSection F tracks x_axis show_grid show_legend 0 "Altitude Profile"
    YAttr.altitude "Altitude (m)" ++
  multiChartSection F tracks x_axis show_grid show_legend 1 "Speed Profile"
    YAttr.speed "Speed (km/h)" ++
  multiChartSection F tracks x_axis show_grid show_legend 2 "Heart Rate Profile"
    YAttr.heart_rate "Heart Rate (bpm)" ++
  multiChartSection F tracks x_axis show_grid show_legend 3 "Power Profile"
    YAttr.power "Power (W)"

/-- The fixed document head emitted by CurveViewer._generate_html, with the
style braces written as escapes. -/
def curveHtmlHeader : String :=
"<!DOCTYPE html>
<html>
<head>
    <meta charset=\"utf-8\">
    <title>Track Curves</title>
    <script src=\"https://cdn.plot.ly/plotly-2.26.0.min.js\"></script>
    <style>
        body \x7b
            font-family: Arial, sans-serif;
            margin: 0;
            padding: 20px;
            background-color: #f5f5f5;
        \x7d
        .chart-container \x7b
            background-color: white;
            border-radius: 8px;
            padding: 20px;
            margin-bottom: 20px;
            box-shadow: 0 2px 4px rgba(0,0,0,0.1);
        \x7d
        h1 \x7b
            color: #333;
            margin-top: 0;
        \x7d
    </style>
</head>
<body>
    <h1>Track Curve Viewer</h1>
"

/-- CurveViewer._generate_html. -/
def generateHtml (F : MathOracle) (tracks : List Track)
    (chart_type x_axis : String) (show_grid show_legend smooth_data : Bool) :
    String :=
  curveHtmlHeader ++
  (if chart_type = "Multi-View (All)" then
    createMultiViewCharts F tracks x_axis show_grid show_legend smooth_data
  else
    createSingleChart F tracks chart_type x_axis show_grid show_legend smooth_data) ++
  "
</body>
</html>
"

/-- The keyword options of CurveViewer.create_view with their kwargs.get
defaults. -/
structure CurveOptions where
  chart_type : String := "Altitude Profile"
  x_axis : String := "Distance (km)"
  show_grid : Bool := true
  show_legend : Bool := true
  smooth_data : Bool := false
deriving DecidableEq, Repr

/-- Modelled from the spec: os.path.abspath resolves the output target to
an absolute reference against the working directory (the library function
is outside the repository). -/
def abspath (cwd file : String) : String :=
  if file.startsWith "/" then file else cwd ++ "/" ++ file

/-- CurveViewer.create_view of src/viewer/curve_viewer.py. The file system
effect is made explicit: the first component lists the (path, content)
writes performed, and the second is the returned value or the raised
error. An empty track list raises ValueError before anything is written;
otherwise the document is generated, written to the output file, and the
absolute path is returned together with the empty view state. -/
def createView (F : MathOracle) (cwd : String) (tracks : List Track)
    (output_file : String) (opts : CurveOptions) :
    List (String × String) × Except String (String × List (String × ℚ)) :=
  if tracks = [] then ([], Except.error "No tracks provided")
  else
    let html := generateHtml F tracks opts.chart_type opts.x_axis
      opts.show_grid opts.show_legend opts.smooth_data
    ([(output_file, html)], Except.ok (abspath cwd output_file, []))

/-- Python str.strip whitespace set. -/
def isPySpace (c : Char) : Bool :=
  c == ' ' || c == '\t' || c == '\n' || c == '\x0d' || c == '\x0b' || c == '\x0c'

/-- Python str.strip on a character list. -/
def pyStrip (s : List Char) : List Char :=
  ((s.dropWhile isPySpace).reverse.dropWhile isPySpace).reverse

/-- Decimal value of a digit string. -/
def digitsToNat (ds : List Char) : ℕ :=
  ds.foldl (fun a c => a * 10 + (c.toNat - 48)) 0

/-- Python int(str): surrounding whitespace is stripped, an optional single
sign is accepted, and the remainder must be a nonempty digit string,
otherwise a ValueError is raised (modelled as none). Underscore separators
and non-ASCII digits, which the fixed-width records never contain, are not
modelled. -/
def pyInt (s : List Char) : Option ℤ :=
  let t := pyStrip s
  let sgn : ℤ := if t.head? = some '-' then -1 else 1
  let ds := if t.head? = some '-' ∨ t.head? = some '+' then t.tail else t
  if ds ≠ [] ∧ ds.all Char.isDigit then some (sgn * (digitsToNat ds : ℤ))
  else none

/-- Python slicing s[a:b] on a character list (never raises). -/
def pySlice (s : List Char) (a b : ℕ) : List Char :=
  (s.drop a).take (b - a)

/-- Python indexing s[i]; only used by the decoder behind a length guard
that keeps i in range, so the default is unreachable. -/
def pyCharAt (s : List Char) (i : ℕ) : Char :=
  s.getD i ' '

/-- Prefix test on character lists (str.startswith). -/
def listStartsWith : List Char → List Char → Bool
  | [], _ => true
  | _ :: _, [] => false
  | a :: as, b :: bs => a == b && listStartsWith as bs

/-- Scanner for removeAll: the counter holds the number of characters of a
matched pattern occurrence still to be skipped. -/
def removeAllAux (pat : List Char) : ℕ → List Char → List Char
  | _, [] => []
  | k + 1, _ :: cs => removeAllAux pat k cs
  | 0, c :: cs =>
    if listStartsWith pat (c :: cs) then removeAllAux pat (pat.length - 1) cs
    else c :: removeAllAux pat 0 cs

/-- Python str.replace(pat, empty string) for a nonempty pattern: all
non-overlapping occurrences are removed, scanning left to right. -/
def removeAll (pat s : List Char) : List Char :=
  removeAllAux pat 0 s

/-- A calendar date as datetime.date carries it. The construction check the
date constructor performs is modelled by dateValid below. -/
structure IGCDate where
  year : ℤ
  month : ℤ
  day : ℤ
deriving DecidableEq, Repr

/-- The Gregorian leap-year rule of the datetime library: divisible by 4
and, when divisible by 100, also by 400. -/
def isLeapYear (y : ℤ) : Bool :=
  y % 4 == 0 && (y % 100 != 0 || y % 400 == 0)

/-- Length of a month of the proleptic Gregorian calendar, as the datetime
library computes it. -/
def daysInMonth (y m : ℤ) : ℤ :=
  if m = 2 then (if isLeapYear y then 29 else 28)
  else if m = 4 ∨ m = 6 ∨ m = 9 ∨ m = 11 then 30
  else 31

/-- The argument check of the datetime.date constructor: date(year, month,
day) succeeds exactly when year lies between MINYEAR 1 and MAXYEAR 9999,
month between 1 and 12, and day between 1 and the length of that month;
for any other arguments it raises ValueError. -/
def dateValid (y m d : ℤ) : Prop :=
  1 ≤ y ∧ y ≤ 9999 ∧ 1 ≤ m ∧ m ≤ 12 ∧ 1 ≤ d ∧ d ≤ daysInMonth y m

instance instDecidableDateValid (y m d : ℤ) : Decidable (dateValid y m d) := by
  unfold dateValid
  infer_instance

/-- Day number of a proleptic Gregorian calendar date relative to the civil
epoch 1970-01-01, the standard civil-from-date computation; models the
datetime library ordinal arithmetic. -/
def daysFromCivil (y m d : ℤ) : ℤ :=
  let y2 := if m ≤ 2 then y - 1 else y
  let era := (if 0 ≤ y2 then y2 else y2 - 399) / 400
  let yoe := y2 - era * 400
  let doy := (153 * (m + (if 2 < m then -3 else 9)) + 2) / 5 + d - 1
  let doe := yoe * 365 + yoe / 4 - yoe / 100 + doy
  era * 146097 + doe - 719468

/-- datetime.combine of the flight date with an HHMMSS time of day,
expressed in seconds on the civil timeline. -/
def combineSeconds (d : IGCDate) (h m s : ℤ) : ℚ :=
  ((daysFromCivil d.year d.month d.day * 86400 + h * 3600 + m * 60 + s : ℤ) : ℚ)

/-- The outcome of IGCParser._parse_date: a constructed date, the explicit
None return for a date string shorter than six characters, or the
ValueError that int or the date constructor raises on a malformed field.
Unlike in _parse_b_record, no handler exists in _parse_date or in the parse
loop, so the valueError outcome propagates out of IGCParser.parse. -/
inductive DateParseResult where
  | date (d : IGCDate)
  | noDate
  | valueError
deriving DecidableEq, Repr

/-- IGCParser._parse_date of src/parsers/igc_parser.py: remove the HFDTE
marker and the optional DATE: marker, strip, read DDMMYY, map a two-digit
year below 50 to 2000 plus the year and otherwise to 1900 plus the year,
and construct date(year, month, day). A date string shorter than 6
characters returns None (noDate). A non-numeric field makes int raise, and
arguments rejected by the date constructor (a day of 00 or a month of 99,
say) make date raise; both ValueErrors are uncaught in the source and are
recorded as valueError. -/
def igcParseDate (line : List Char) : DateParseResult :=
  let date_str := pyStrip (removeAll (String.toList "DATE:")
    (removeAll (String.toList "HFDTE") line))
  if 6 ≤ date_str.length then
    match pyInt (pySlice date_str 0 2), pyInt (pySlice date_str 2 4),
        pyInt (pySlice date_str 4 6) with
    | some day, some month, some year =>
      let year2 := if year < 50 then year + 2000 else year + 1900
      if dateValid year2 month day then
        .date { year := year2, month := month, day := day }
      else .valueError
    | _, _, _ => .valueError
  else .noDate

/-- IGCParser._parse_b_record of src/parsers/igc_parser.py: a fixed-width
position record decoded by exact character offsets. Records shorter than 35
characters and records whose numeric fields fail to parse yield none (the
source catches ValueError and IndexError and returns None). When a flight
date is available the timestamp is the date combined with the HHMMSS time
of day; an out-of-range time component makes the time replace call raise,
which the same handler turns into none. With no flight date the timestamp
is none. The Python local names (time_str, lat_dir, the intermediate
latitude and longitude values) are inlined here; the slice offsets and
formulas are unchanged. -/
def igcParseBRecord (line : List Char) (flight_date : Option IGCDate) :
    Option TrackPoint :=
  if line.length < 35 then none
  else
    (pyInt (pySlice (pySlice line 1 7) 0 2)).bind fun hours =>
    (pyInt (pySlice (pySlice line 1 7) 2 4)).bind fun minutes =>
    (pyInt (pySlice (pySlice line 1 7) 4 6)).bind fun seconds =>
    (pyInt (pySlice line 7 9)).bind fun lat_deg =>
    (pyInt (pySlice line 9 11)).bind fun lat_min =>
    (pyInt (pySlice line 11 14)).bind fun lat_min_dec =>
    (pyInt (pySlice line 15 18)).bind fun lon_deg =>
    (pyInt (pySlice line 18 20)).bind fun lon_min =>
    (pyInt (pySlice line 20 23)).bind fun lon_min_dec =>
    (pyInt (pySlice line 30 35)).bind fun gps_alt =>
    (match flight_date with
      | none => some none
      | some d =>
        if 0 ≤ hours ∧ hours ≤ 23 ∧ 0 ≤ minutes ∧ minutes ≤ 59 ∧
            0 ≤ seconds ∧ seconds ≤ 59 then
          some (some (combineSeconds d hours minutes seconds))
        else none).bind fun timestamp =>
    some { latitude :=
             if pyCharAt line 14 = 'S' then
               -((lat_deg : ℚ) + ((lat_min : ℚ) + (lat_min_dec : ℚ) / 1000) / 60)
             else (lat_deg : ℚ) + ((lat_min : ℚ) + (lat_min_dec : ℚ) / 1000) / 60
           longitude :=
             if pyCharAt line 23 = 'W' then
               -((lon_deg : ℚ) + ((lon_min : ℚ) + (lon_min_dec : ℚ) / 1000) / 60)
             else (lon_deg : ℚ) + ((lon_min : ℚ) + (lon_min_dec : ℚ) / 1000) / 60
           altitude := some ((gps_alt : ℚ))
           timestamp := timestamp }

/-- The line loop of IGCParser.parse: strip each line, let an HFDTE record
replace the current flight date (a date string shorter than six characters
sets it to None), decode B records with the current flight date (dropping
records that decode to none), and ignore everything else. An HFDTE record
whose parse raises aborts the loop: the uncaught ValueError propagates out
of IGCParser.parse, so no further line is read and no track is returned;
that aborted run is modelled as producing no points, and no verified
property reads the value of that branch. -/
def igcParseLines : Option IGCDate → List (List Char) → List TrackPoint
  | _, [] => []
  | fd, l :: ls =>
    let line := pyStrip l
    if listStartsWith (String.toList "HFDTE") line ||
        listStartsWith (String.toList "HFDTEDATE:") line then
      match igcParseDate line with
      | .date d => igcParseLines (some d) ls
      | .noDate => igcParseLines none ls
      | .valueError => []
    else if listStartsWith (String.toList "B") line then
      match igcParseBRecord line fd with
      | some p => p :: igcParseLines fd ls
      | none => igcParseLines fd ls
    else igcParseLines fd ls

/-- IGCParser.parse of src/parsers/igc_parser.py on the lines of a file. -/
def igcParse (name : String) (lines : List (List Char)) : Track :=
  { name := name, track_type := "igc", points := igcParseLines none lines }

/-- Membership in any of the three extraction levels traces back to a source
point of the document, converted by gpxMkPoint. -/
theorem gpx_level_mem (g : GPXDoc) (q : TrackPoint)
    (hq : q ∈ gpxTrackPoints g ∨ q ∈ gpxRoutePoints g ∨ q ∈ gpxWaypointPoints g) :
    ∃ p ∈ gpxAllSourcePoints g, q = gpxMkPoint p := by
  rcases hq with hq | hq | hq
  · simp only [gpxTrackPoints, List.mem_flatMap, List.mem_map] at hq
    obtain ⟨t, ht, s, hs, p, hp, rfl⟩ := hq
    refine ⟨p, ?_, rfl⟩
    simp only [gpxAllSourcePoints, List.mem_append, List.mem_flatMap]
    exact Or.inl (Or.inl ⟨t, ht, s, hs, hp⟩)
  · simp only [gpxRoutePoints, List.mem_flatMap, List.mem_map] at hq
    obtain ⟨r, hr, p, hp, rfl⟩ := hq
    refine ⟨p, ?_, rfl⟩
    simp only [gpxAllSourcePoints, List.mem_append, List.mem_flatMap]
    exact Or.inl (Or.inr ⟨r, hr, hp⟩)
  · simp only [gpxWaypointPoints, List.mem_map] at hq
    obtain ⟨p, hp, rfl⟩ := hq
    refine ⟨p, ?_, rfl⟩
    simp only [gpxAllSourcePoints, List.mem_append]
    exact Or.inr hp

/-- The produced point list is always one of the three extraction levels. -/
theorem gpx_parse_points_cases (name : String) (g : GPXDoc) :
    (gpxParse name g).points = gpxTrackPoints g ∨
    (gpxParse name g).points = gpxRoutePoints g ∨
    (gpxParse name g).points = gpxWaypointPoints g := by
  unfold gpxParse
  by_cases h1 : (gpxTrackPoints g).length = 0
  · by_cases h2 : (gpxRoutePoints g).length = 0
    · simp [h1, h2]
    · simp [h1, h2]
  · simp [h1]

/-- Concrete route-only document: no tracks, one route with one point, one
waypoint that the route fallback shadows. -/
def exRouteDoc : GPXDoc :=
  { tracks := []
    routes := [{ points := [{ latitude := 5, longitude := 6 }] }]
    waypoints := [{ latitude := 9, longitude := 9 }] }

/-- C8: GPXParser.parse extracts all points from all segments of all tracks;
exactly when that yields zero points it falls back to all points of all
routes; exactly when that still yields zero points it falls back to the
standalone waypoints; and a document with no track elements but one route
element yields a non-empty Track via the route fallback path. -/
theorem gpx_parse_fallback_order (name : String) (g : GPXDoc) :
    (gpxTrackPoints g ≠ [] → (gpxParse name g).points = gpxTrackPoints g) ∧
    (gpxTrackPoints g = [] → gpxRoutePoints g ≠ [] →
      (gpxParse name g).points = gpxRoutePoints g) ∧
    (gpxTrackPoints g = [] → gpxRoutePoints g = [] →
      (gpxParse name g).points = gpxWaypointPoints g) ∧
    (gpxParse "r" exRouteDoc).points ≠ [] := by
  refine ⟨?_, ?_, ?_, by decide⟩
  · intro h
    unfold gpxParse
    simp [List.length_eq_zero, h]
  · intro h1 h2
    unfold gpxParse
    simp [List.length_eq_zero, h1, h2]
  · intro h1 h2
    unfold gpxParse
    simp [List.length_eq_zero, h1, h2]

/-- Witness for gpx_parse_fallback_order: the route fallback fires on a
concrete document whose track level is empty. -/
theorem gpx_parse_fallback_order_witness :
    gpxTrackPoints exRouteDoc = [] ∧
    gpxRoutePoints exRouteDoc ≠ [] ∧
    (gpxParse "w" exRouteDoc).points = gpxRoutePoints exRouteDoc :=
  ⟨by decide, by decide,
    (gpx_parse_fallback_order "w" exRouteDoc).2.1 (by decide) (by decide)⟩

/-- Concrete route-exchange point carrying every vendor extension value. -/
def exGpxPoint : GPXPoint :=
  { latitude := 47, longitude := 7, elevation := some 500, time := some 1000,
    extensions := { power := some 250, heart_rate := some 150,
                    cadence := some 90, temperature := some 21,
                    speed := some 10 } }

/-- Concrete document with one track, one segment, one point. -/
def exGpxDoc : GPXDoc :=
  { tracks := [{ segments := [{ points := [exGpxPoint] }] }],
    routes := [], waypoints := [] }

/-- C1 counterexample: the source point carries power 250 (and the other
extension values) in its vendor extensions, yet the decoded TrackPoint has
every extension field unset; the decoder output differs from the point the
specification describes. -/
theorem gpx_extensions_not_carried_cex :
    exGpxPoint.extensions.power = some 250 ∧
    ((gpxParse "a" exGpxDoc).points.map fun p => p.power) = [none] ∧
    ((gpxParse "a" exGpxDoc).points.map fun p => p.heart_rate) = [none] ∧
    ((gpxParse "a" exGpxDoc).points.map fun p => p.cadence) = [none] ∧
    ((gpxParse "a" exGpxDoc).points.map fun p => p.temperature) = [none] ∧
    ((gpxParse "a" exGpxDoc).points.map fun p => p.speed) = [none] ∧
    ((gpxParse "a" exGpxDoc).points.map
      fun p => (p.latitude, p.longitude, p.altitude, p.timestamp)) =
      [(47, 7, some 500, some 1000)] ∧
    (gpxParse "a" exGpxDoc).points ≠ [gpxMkPointSpec exGpxPoint] := by
  decide

/-- C1 (amended): every TrackPoint produced by GPXParser.parse carries the
latitude, longitude, elevation as altitude and time as timestamp of some
source point, while the extension fields (power, heart rate, cadence,
temperature, speed) are never populated and remain none, even when present
in the vendor extensions of the source point. -/
theorem gpx_parse_point_fields (name : String) (g : GPXDoc) (q : TrackPoint)
    (hq : q ∈ (gpxParse name g).points) :
    ∃ p ∈ gpxAllSourcePoints g,
      q.latitude = p.latitude ∧ q.longitude = p.longitude ∧
      q.altitude = p.elevation ∧ q.timestamp = p.time ∧
      q.power = none ∧ q.heart_rate = none ∧ q.cadence = none ∧
      q.temperature = none ∧ q.speed = none := by
  have hcases := gpx_parse_points_cases name g
  have hlevel : q ∈ gpxTrackPoints g ∨ q ∈ gpxRoutePoints g ∨ q ∈ gpxWaypointPoints g := by
    rcases hcases with h | h | h
    · exact Or.inl (h ▸ hq)
    · exact Or.inr (Or.inl (h ▸ hq))
    · exact Or.inr (Or.inr (h ▸ hq))
  obtain ⟨p, hp, rfl⟩ := gpx_level_mem g q hlevel
  exact ⟨p, hp, rfl, rfl, rfl, rfl, rfl, rfl, rfl, rfl, rfl⟩

/-- Witness for gpx_parse_point_fields at the concrete document. -/
theorem gpx_parse_point_fields_witness :
    gpxMkPoint exGpxPoint ∈ (gpxParse "a" exGpxDoc).points ∧
    ∃ p ∈ gpxAllSourcePoints exGpxDoc,
      (gpxMkPoint exGpxPoint).latitude = p.latitude ∧
      (gpxMkPoint exGpxPoint).longitude = p.longitude ∧
      (gpxMkPoint exGpxPoint).altitude = p.elevation ∧
      (gpxMkPoint exGpxPoint).timestamp = p.time ∧
      (gpxMkPoint exGpxPoint).power = none ∧
      (gpxMkPoint exGpxPoint).heart_rate = none ∧
      (gpxMkPoint exGpxPoint).cadence = none ∧
      (gpxMkPoint exGpxPoint).temperature = none ∧
      (gpxMkPoint exGpxPoint).speed = none :=
  ⟨by decide, gpx_parse_point_fields "a" exGpxDoc (gpxMkPoint exGpxPoint) (by decide)⟩

/-- C9: CurveViewer.create_view with an empty track list raises ValueError
(No tracks provided) and performs no write; with a non-empty track list it
performs exactly one write of the generated document to the output file and
returns the absolute output path together with the empty view state. -/
theorem create_view_empty_raises (F : MathOracle) (cwd : String)
    (tracks : List Track) (f : String) (opts : CurveOptions) :
    createView F cwd [] f opts = ([], Except.error "No tracks provided") ∧
    (tracks ≠ [] → ∃ html, createView F cwd tracks f opts =
      ([(f, html)], Except.ok (abspath cwd f, []))) := by
  constructor
  · simp [createView]
  · intro h
    refine ⟨generateHtml F tracks opts.chart_type opts.x_axis opts.show_grid
      opts.show_legend opts.smooth_data, ?_⟩
    simp [createView, h]

/-- Witness for create_view_empty_raises on a one-track list. -/
theorem create_view_empty_raises_witness :
    ([⟨"t", "gpx", [], none⟩] : List Track) ≠ [] ∧
    ∃ html, createView ⟨0, id, id, id, id⟩ "/work" [⟨"t", "gpx", [], none⟩]
        "track_curves.html" {} =
      ([("track_curves.html", html)],
        Except.ok (abspath "/work" "track_curves.html", [])) :=
  ⟨by decide,
    (create_view_empty_raises ⟨0, id, id, id, id⟩ "/work" [⟨"t", "gpx", [], none⟩]
      "track_curves.html" {}).2 (by decide)⟩

/-- C6: the flight-recorder decoder never fails on a malformed position
record: a B record shorter than 35 characters yields none, a B record that
decodes to none is skipped while parsing continues with the remaining
lines, and a file whose only B record is 20 characters long decodes to a
Track with zero points. -/
theorem igc_malformed_b_record_tolerated :
    (∀ (line : List Char) (fd : Option IGCDate),
      line.length < 35 → igcParseBRecord line fd = none) ∧
    (∀ (l : List Char) (ls : List (List Char)) (fd : Option IGCDate),
      listStartsWith (String.toList "B") (pyStrip l) = true →
      igcParseBRecord (pyStrip l) fd = none →
      igcParseLines fd (l :: ls) = igcParseLines fd ls) ∧
    (igcParse "flight.igc" [String.toList "B1602055107126002495"]).points = [] := by
  refine ⟨?_, ?_, by decide⟩
  · intro line fd h
    unfold igcParseBRecord
    simp [h]
  · intro l ls fd hB hnone
    have hH : listStartsWith (String.toList "HFDTE") (pyStrip l) = false := by
      cases hs : pyStrip l with
      | nil => simp [hs, listStartsWith] at hB
      | cons c cs =>
        rw [hs] at hB
        simp only [listStartsWith, Bool.and_eq_true, beq_iff_eq] at hB
        obtain ⟨rfl, -⟩ := hB
        simp [listStartsWith]
    have hHD : listStartsWith (String.toList "HFDTEDATE:") (pyStrip l) = false := by
      cases hs : pyStrip l with
      | nil => simp [hs, listStartsWith] at hB
      | cons c cs =>
        rw [hs] at hB
        simp only [listStartsWith, Bool.and_eq_true, beq_iff_eq] at hB
        obtain ⟨rfl, -⟩ := hB
        simp [listStartsWith]
    conv_lhs => unfold igcParseLines
    simp at hH hHD
    simp [hH, hHD, hB, hnone]

/-- Witness for igc_malformed_b_record_tolerated: a concrete 12 character B
record is dropped and parsing continues. -/
theorem igc_malformed_b_record_tolerated_witness :
    listStartsWith (String.toList "B") (pyStrip (String.toList "B16020551071")) = true ∧
    igcParseBRecord (pyStrip (String.toList "B16020551071")) none = none ∧
    igcParseLines none [String.toList "B16020551071"] = igcParseLines none [] :=
  ⟨by decide, by decide,
    igc_malformed_b_record_tolerated.2.1 (String.toList "B16020551071") [] none
      (by decide) (by decide)⟩

/-- A digit character never equals any non-digit character. -/
theorem isDigit_ne (c : Char) (h : c.isDigit = true) (d : Char)
    (hd : d.isDigit = false) : c ≠ d := by
  intro hcd
  rw [hcd, hd] at h
  cases h

/-- Digit characters are not stripped as whitespace. -/
theorem isPySpace_of_digit (c : Char) (h : c.isDigit = true) :
    isPySpace c = false := by
  have h1 := isDigit_ne c h ' ' (by decide)
  have h2 := isDigit_ne c h '\t' (by decide)
  have h3 := isDigit_ne c h '\n' (by decide)
  have h4 := isDigit_ne c h '\x0d' (by decide)
  have h5 := isDigit_ne c h '\x0b' (by decide)
  have h6 := isDigit_ne c h '\x0c' (by decide)
  simp [isPySpace, h1, h2, h3, h4, h5, h6]

theorem dropWhile_eq_self_of (p : Char → Bool) (l : List Char)
    (h : ∀ c ∈ l, p c = false) : l.dropWhile p = l := by
  cases l with
  | nil => rfl
  | cons c cs =>
    have := h c (by simp)
    simp [List.dropWhile_cons, this]

/-- Stripping is the identity on a string with no whitespace at all. -/
theorem pyStrip_eq_self (s : List Char) (h : ∀ c ∈ s, isPySpace c = false) :
    pyStrip s = s := by
  unfold pyStrip
  rw [dropWhile_eq_self_of _ _ h]
  rw [dropWhile_eq_self_of _ _ fun c hc => h c (List.mem_reverse.mp hc)]
  exact List.reverse_reverse s

/-- Stripping is the identity on an all-digit string. -/
theorem pyStrip_all_digits (s : List Char) (h : s.all Char.isDigit = true) :
    pyStrip s = s :=
  pyStrip_eq_self s fun c hc =>
    isPySpace_of_digit c ((List.all_eq_true.mp h) c hc)

/-- int() on a nonempty all-digit string returns its decimal value. -/
theorem pyInt_digits (s : List Char) (hne : s ≠ [])
    (h : s.all Char.isDigit = true) :
    pyInt s = some ((digitsToNat s : ℤ)) := by
  unfold pyInt
  rw [pyStrip_all_digits s h]
  cases s with
  | nil => exact absurd rfl hne
  | cons c cs =>
    have hc : c.isDigit = true := (List.all_eq_true.mp h) c (by simp)
    have hminus : c ≠ '-' := isDigit_ne c hc '-' (by decide)
    have hplus : c ≠ '+' := isDigit_ne c hc '+' (by decide)
    simp only [List.head?_cons, Option.some.injEq]
    have hds : (if c = '-' ∨ c = '+' then (c :: cs).tail else (c :: cs)) = c :: cs := by
      refine if_neg ?_
      rintro (h1 | h1)
      · exact hminus h1
      · exact hplus h1
    have hsgn : (if c = '-' then (-1 : ℤ) else 1) = 1 := if_neg hminus
    rw [hds, hsgn]
    rw [if_pos ⟨by simp, h⟩, one_mul]

theorem digitsToNat_pair (a b : Char) :
    digitsToNat [a, b] = 10 * (a.toNat - 48) + (b.toNat - 48) := by
  simp only [digitsToNat, List.foldl]
  omega

/-- A pattern beginning with a non-digit never matches at a digit. -/
theorem listStartsWith_false_at_digit (p0 : Char) (pr : List Char)
    (hp0 : p0.isDigit = false) (c : Char) (hc : c.isDigit = true)
    (cs : List Char) : listStartsWith (p0 :: pr) (c :: cs) = false := by
  have : p0 ≠ c := fun h => isDigit_ne c hc p0 hp0 h.symm
  simp [listStartsWith, this]

/-- The removal scanner leaves an all-digit string unchanged when the
pattern begins with a non-digit character. -/
theorem removeAllAux_digits (p0 : Char) (pr : List Char)
    (hp0 : p0.isDigit = false) (s : List Char)
    (hs : s.all Char.isDigit = true) :
    removeAllAux (p0 :: pr) 0 s = s := by
  induction s with
  | nil => rfl
  | cons c cs ih =>
    have hc : c.isDigit = true := (List.all_eq_true.mp hs) c (by simp)
    have hcs : cs.all Char.isDigit = true := by
      rw [List.all_eq_true] at hs ⊢
      exact fun x hx => hs x (by simp [hx])
    unfold removeAllAux
    rw [listStartsWith_false_at_digit p0 pr hp0 c hc cs]
    simp only [Bool.false_eq_true, if_false]
    rw [ih hcs]

/-- A list always starts with itself followed by anything. -/
theorem listStartsWith_append (pat rest : List Char) :
    listStartsWith pat (pat ++ rest) = true := by
  induction pat with
  | nil => rfl
  | cons a as ih => simp [listStartsWith, ih]

theorem pySlice_all_digits (s : List Char) (hs : s.all Char.isDigit = true)
    (a b : ℕ) : (pySlice s a b).all Char.isDigit = true := by
  rw [List.all_eq_true] at hs ⊢
  intro c hc
  exact hs c (List.mem_of_mem_drop (List.mem_of_mem_take hc))

theorem pySlice_length (s : List Char) (a b : ℕ) :
    (pySlice s a b).length = min (b - a) (s.length - a) := by
  simp [pySlice]

/-- igcParseDate on the HFDTE marker followed by an all-digit string of at
least six characters whose decoded fields pass the date constructor check:
day from the first two digits, month from the next two, and the two-digit
year mapped below 50 to 2000 plus the year and otherwise to 1900 plus the
year. Without the validity hypothesis the source raises ValueError. -/
theorem igcParseDate_digits (s : List Char) (h6 : 6 ≤ s.length)
    (hs : s.all Char.isDigit = true)
    (hvalid : dateValid
      (if (digitsToNat (pySlice s 4 6) : ℤ) < 50
       then (digitsToNat (pySlice s 4 6) : ℤ) + 2000
       else (digitsToNat (pySlice s 4 6) : ℤ) + 1900)
      (digitsToNat (pySlice s 2 4)) (digitsToNat (pySlice s 0 2))) :
    igcParseDate (String.toList "HFDTE" ++ s) =
      .date { year := if (digitsToNat (pySlice s 4 6) : ℤ) < 50
                      then (digitsToNat (pySlice s 4 6) : ℤ) + 2000
                      else (digitsToNat (pySlice s 4 6) : ℤ) + 1900,
              month := (digitsToNat (pySlice s 2 4) : ℤ),
              day := (digitsToNat (pySlice s 0 2) : ℤ) } := by
  have h1 : removeAll (String.toList "HFDTE") (String.toList "HFDTE" ++ s) = s := by
    rw [show String.toList "HFDTE" ++ s = 'H' :: 'F' :: 'D' :: 'T' :: 'E' :: s from rfl]
    unfold removeAll
    rw [show removeAllAux (String.toList "HFDTE") 0 ('H' :: 'F' :: 'D' :: 'T' :: 'E' :: s) =
      if listStartsWith (String.toList "HFDTE") ('H' :: 'F' :: 'D' :: 'T' :: 'E' :: s) then
        removeAllAux (String.toList "HFDTE") ((String.toList "HFDTE").length - 1)
          ('F' :: 'D' :: 'T' :: 'E' :: s)
      else 'H' :: removeAllAux (String.toList "HFDTE") 0 ('F' :: 'D' :: 'T' :: 'E' :: s)
      from rfl]
    rw [if_pos (show listStartsWith (String.toList "HFDTE")
      ('H' :: 'F' :: 'D' :: 'T' :: 'E' :: s) = true from
      listStartsWith_append (String.toList "HFDTE") s)]
    show removeAllAux (String.toList "HFDTE") 0 s = s
    exact removeAllAux_digits 'H' ['F', 'D', 'T', 'E'] (by decide) s hs
  have h2 : removeAll (String.toList "DATE:") s = s :=
    removeAllAux_digits 'D' ['A', 'T', 'E', ':'] (by decide) s hs
  have hne : ∀ a : ℕ, a + 2 ≤ s.length → pySlice s a (a + 2) ≠ [] := by
    intro a ha hnil
    have := pySlice_length s a (a + 2)
    rw [hnil] at this
    simp at this
    omega
  unfold igcParseDate
  rw [h1, h2, pyStrip_all_digits s hs, if_pos h6]
  rw [pyInt_digits (pySlice s 0 2) (hne 0 (by omega)) (pySlice_all_digits s hs 0 2)]
  rw [pyInt_digits (pySlice s 2 4) (hne 2 (by omega)) (pySlice_all_digits s hs 2 4)]
  rw [pyInt_digits (pySlice s 4 6) (hne 4 (by omega)) (pySlice_all_digits s hs 4 6)]
  dsimp only
  rw [if_pos hvalid]

/-- A successfully decoded position record parsed with a flight date in
hand carries the timestamp obtained by combining that date with the HHMMSS
time-of-day fields of the record. -/
theorem igcParseBRecord_timestamp (line : List Char) (d : IGCDate)
    (p : TrackPoint) (h m s : ℤ)
    (hp : igcParseBRecord line (some d) = some p)
    (hh : pyInt (pySlice (pySlice line 1 7) 0 2) = some h)
    (hm : pyInt (pySlice (pySlice line 1 7) 2 4) = some m)
    (hs : pyInt (pySlice (pySlice line 1 7) 4 6) = some s) :
    p.timestamp = some (combineSeconds d h m s) := by
  unfold igcParseBRecord at hp
  by_cases hlen : line.length < 35
  · rw [if_pos hlen] at hp
    exact absurd hp (by simp)
  · rw [if_neg hlen] at hp
    simp only [Option.bind_eq_some, Option.pure_def, Option.some.injEq] at hp
    obtain ⟨hours, h1, minutes, h2, seconds, h3, latd, h4, latm, h5, latmd, h6,
      lond, h7, lonm, h8, lonmd, h9, alt, h10, ts, hts, hpeq⟩ := hp
    have hhours : hours = h := Option.some.inj (h1.symm.trans hh)
    have hmins : minutes = m := Option.some.inj (h2.symm.trans hm)
    have hsecs : seconds = s := Option.some.inj (h3.symm.trans hs)
    split at hts
    · have hts2 : ts = some (combineSeconds d hours minutes seconds) :=
        (Option.some.inj hts).symm
      rw [← hpeq]
      show ts = some (combineSeconds d h m s)
      rw [hts2, hhours, hmins, hsecs]
    · exact absurd hts (by simp)

/-- A position record decoded before any date record has no timestamp. -/
theorem igcParseBRecord_no_date (line : List Char) (p : TrackPoint)
    (hp : igcParseBRecord line none = some p) : p.timestamp = none := by
  unfold igcParseBRecord at hp
  by_cases hlen : line.length < 35
  · rw [if_pos hlen] at hp
    exact absurd hp (by simp)
  · rw [if_neg hlen] at hp
    simp only [Option.bind_eq_some, Option.pure_def, Option.some.injEq] at hp
    obtain ⟨hours, h1, minutes, h2, seconds, h3, latd, h4, latm, h5, latmd, h6,
      lond, h7, lonm, h8, lonmd, h9, alt, h10, ts, hts, hpeq⟩ := hp
    rw [← hpeq]
    show ts = none
    exact hts.symm

/-- The error path of _parse_date is kept distinct from success and from
the None return: a day of 00 or a month of 99 makes date(year, month, day)
raise ValueError in the source, which no handler catches. -/
theorem igcParseDate_invalid_raises :
    igcParseDate (String.toList "HFDTE000120") = .valueError ∧
    igcParseDate (String.toList "HFDTE049920") = .valueError :=
  ⟨by decide, by decide⟩

/-- C7: the flight-recorder date record parser reads the six characters
after the HFDTE marker (and optional DATE: marker) as DDMMYY, mapping a
two-digit year below 50 to 2000 plus the year and otherwise to 1900 plus
the year, so HFDTE040120 yields the date 2020-01-04; the general DDMMYY
rule is stated for fields the date constructor accepts, since on any other
fields the source raises an uncaught ValueError rather than producing a
date; every B record decoded with a flight date in hand combines that date
with its HHMMSS time-of-day into the timestamp of the point, and a point
decoded before any date record has no timestamp. -/
theorem igc_date_rule_and_timestamps :
    igcParseDate (String.toList "HFDTE040120") =
      .date { year := 2020, month := 1, day := 4 } ∧
    igcParseDate (String.toList "HFDTEDATE:040120") =
      .date { year := 2020, month := 1, day := 4 } ∧
    (∀ (s : List Char), 6 ≤ s.length → s.all Char.isDigit = true →
      dateValid
        (if (digitsToNat (pySlice s 4 6) : ℤ) < 50
         then (digitsToNat (pySlice s 4 6) : ℤ) + 2000
         else (digitsToNat (pySlice s 4 6) : ℤ) + 1900)
        (digitsToNat (pySlice s 2 4)) (digitsToNat (pySlice s 0 2)) →
      igcParseDate (String.toList "HFDTE" ++ s) =
        .date { year := if (digitsToNat (pySlice s 4 6) : ℤ) < 50
                        then (digitsToNat (pySlice s 4 6) : ℤ) + 2000
                        else (digitsToNat (pySlice s 4 6) : ℤ) + 1900,
                month := (digitsToNat (pySlice s 2 4) : ℤ),
                day := (digitsToNat (pySlice s 0 2) : ℤ) }) ∧
    (∀ (line : List Char) (d : IGCDate) (p : TrackPoint) (h m s : ℤ),
      igcParseBRecord line (some d) = some p →
      pyInt (pySlice (pySlice line 1 7) 0 2) = some h →
      pyInt (pySlice (pySlice line 1 7) 2 4) = some m →
      pyInt (pySlice (pySlice line 1 7) 4 6) = some s →
      p.timestamp = some (combineSeconds d h m s)) ∧
    (∀ (line : List Char) (p : TrackPoint),
      igcParseBRecord line none = some p → p.timestamp = none) ∧
    ((igcParse "f" [String.toList "HFDTE040120",
        String.toList "B1602055107126N00249343WA0028000287"]).points.map
          fun p => p.timestamp) =
      [some (combineSeconds { year := 2020, month := 1, day := 4 } 16 2 5)] := by
  refine ⟨by decide, by decide, ?_, ?_, ?_, by decide⟩
  · exact igcParseDate_digits
  · exact igcParseBRecord_timestamp
  · exact igcParseBRecord_no_date

/-- Witness for igc_date_rule_and_timestamps: the DDMMYY rule applied to the
concrete digit string 040120, whose fields day 4, month 1, year 2020 pass
the date constructor check. -/
theorem igc_date_rule_and_timestamps_witness :
    6 ≤ (String.toList "040120").length ∧
    (String.toList "040120").all Char.isDigit = true ∧
    dateValid
      (if (digitsToNat (pySlice (String.toList "040120") 4 6) : ℤ) < 50
       then (digitsToNat (pySlice (String.toList "040120") 4 6) : ℤ) + 2000
       else (digitsToNat (pySlice (String.toList "040120") 4 6) : ℤ) + 1900)
      (digitsToNat (pySlice (String.toList "040120") 2 4))
      (digitsToNat (pySlice (String.toList "040120") 0 2)) ∧
    igcParseDate (String.toList "HFDTE" ++ String.toList "040120") =
      .date { year := if (digitsToNat (pySlice (String.toList "040120") 4 6) : ℤ) < 50
                      then (digitsToNat (pySlice (String.toList "040120") 4 6) : ℤ) + 2000
                      else (digitsToNat (pySlice (String.toList "040120") 4 6) : ℤ) + 1900,
              month := (digitsToNat (pySlice (String.toList "040120") 2 4) : ℤ),
              day := (digitsToNat (pySlice (String.toList "040120") 0 2) : ℤ) } :=
  ⟨by decide, by decide, by decide,
    igc_date_rule_and_timestamps.2.2.1 (String.toList "040120")
      (by decide) (by decide) (by decide)⟩

theorem backStep_const (pts : List TrackPoint) (orig : List (Option ℚ))
    (t0 half c : ℚ) (j : ℕ) (rest : ℚ × ℕ)
    (horig : ∀ (k : ℕ) (q : TrackPoint), pts.get? k = some q →
      orig.getD k none = some c)
    (h1 : rest.1 = c * rest.2) :
    (backStep pts orig t0 half j rest).1 =
      c * (backStep pts orig t0 half j rest).2 := by
  cases hg : pts.get? j with
  | none => simp only [backStep, hg]; exact h1
  | some other =>
    cases hts : other.timestamp with
    | none => simp only [backStep, hg, hts]; exact h1
    | some tj =>
      by_cases hb : half < |t0 - tj|
      · simp only [backStep, hg, hts, if_pos hb]
        simp
      · have hv := horig j other hg
        simp only [backStep, hg, hts, if_neg hb, hv]
        rw [h1]
        push_cast
        ring

theorem backScan_const (pts : List TrackPoint) (orig : List (Option ℚ))
    (t0 half c : ℚ)
    (horig : ∀ (k : ℕ) (q : TrackPoint), pts.get? k = some q →
      orig.getD k none = some c) :
    ∀ i, (backScan pts orig t0 half i).1 = c * (backScan pts orig t0 half i).2 := by
  intro i
  induction i with
  | zero => exact backStep_const pts orig t0 half c 0 (0, 0) horig (by simp)
  | succ j ih => exact backStep_const pts orig t0 half c (j + 1) _ horig ih

theorem forwardScan_const (t0 half c : ℚ) (l : List (TrackPoint × Option ℚ))
    (hl : ∀ x ∈ l, x.2 = some c) :
    (forwardScan t0 half l).1 = c * (forwardScan t0 half l).2 := by
  induction l with
  | nil => simp [forwardScan]
  | cons x rest ih =>
    obtain ⟨other, ov⟩ := x
    have hov : ov = some c := hl (other, ov) (by simp)
    have ihr := ih fun y hy => hl y (by simp [hy])
    show (forwardStep t0 half other ov (forwardScan t0 half rest)).1 =
      c * (forwardStep t0 half other ov (forwardScan t0 half rest)).2
    cases hts : other.timestamp with
    | none => simp only [forwardStep, hts]; exact ihr
    | some tj =>
      by_cases hb : half < |t0 - tj|
      · simp only [forwardStep, hts, if_pos hb]
        simp
      · simp only [forwardStep, hts, if_neg hb, hov]
        rw [ihr]
        push_cast
        ring

theorem backStep_count (pts : List TrackPoint) (orig : List (Option ℚ))
    (t0 half : ℚ) (j : ℕ) (rest : ℚ × ℕ) (p : TrackPoint) (v : ℚ)
    (hp : pts.get? j = some p) (hts : p.timestamp = some t0)
    (hv : orig.getD j none = some v) (hhalf : 0 ≤ half) :
    (backStep pts orig t0 half j rest).2 = rest.2 + 1 := by
  have h0 : ¬ half < |t0 - t0| := by
    rw [sub_self, abs_zero]
    exact not_lt.mpr hhalf
  simp only [backStep, hp, hts, if_neg h0, hv]

/-- The backward scan always counts the current point itself when it has a
timestamp and a snapshot value and the half window is non-negative. -/
theorem backScan_count_pos (pts : List TrackPoint) (orig : List (Option ℚ))
    (t0 half : ℚ) (i : ℕ) (p : TrackPoint) (v : ℚ)
    (hp : pts.get? i = some p) (hts : p.timestamp = some t0)
    (hv : orig.getD i none = some v) (hhalf : 0 ≤ half) :
    1 ≤ (backScan pts orig t0 half i).2 := by
  cases i with
  | zero =>
    unfold backScan
    rw [backStep_count pts orig t0 half 0 (0, 0) p v hp hts hv hhalf]
  | succ j =>
    unfold backScan
    rw [backStep_count pts orig t0 half (j + 1) _ p v hp hts hv hhalf]
    omega

/-- The snapshot list holds the original channel value at every index. -/
theorem orig_getD (pts : List TrackPoint) (k : ℕ) (q : TrackPoint)
    (hq : pts.get? k = some q) :
    (pts.map fun r => r.vertical_speed_mh).getD k none = q.vertical_speed_mh := by
  have hq2 : pts[k]? = some q := by
    rw [← List.get?_eq_getElem?]
    exact hq
  simp [List.getD, List.getElem?_map, hq2]

/-- The result list of the averaging pass, at an index whose point has both
the channel and a timestamp, is the avgPoint update of that point. -/
theorem averageVerticalSpeed_get (ws : ℚ) (pts : List TrackPoint) (i : ℕ)
    (p : TrackPoint) (hi : pts.get? i = some p)
    (hmh : p.vertical_speed_mh ≠ none) (hts : p.timestamp ≠ none) :
    (averageVerticalSpeed ws pts).get? i =
      some (avgPoint pts (pts.map fun q => q.vertical_speed_mh) (ws / 2) i p) := by
  unfold averageVerticalSpeed
  rw [if_neg (not_not_intro ⟨p, List.get?_mem hi, hmh, hts⟩)]
  rw [mapWithIndex_get]
  rw [hi]
  simp

/-- avgPoint leaves a constant channel constant: with every snapshot value
equal to c, the window mean is c, and an empty window leaves the original
value c untouched. -/
theorem avgPoint_const (pts : List TrackPoint) (t0half : ℚ) (i : ℕ)
    (p : TrackPoint) (c : ℚ) (hp : p.vertical_speed_mh = some c)
    (horig : ∀ (k : ℕ) (q : TrackPoint), pts.get? k = some q →
      (pts.map fun r => r.vertical_speed_mh).getD k none = some c)
    (hzip : ∀ x ∈ (pts.zip (pts.map fun r => r.vertical_speed_mh)).drop (i + 1),
      x.2 = some c) :
    (avgPoint pts (pts.map fun r => r.vertical_speed_mh) t0half i p).vertical_speed_mh =
      some c := by
  cases hts : p.timestamp with
  | none => simp only [avgPoint, hp, hts]
  | some t0 =>
    simp only [avgPoint, hp, hts]
    have hb := backScan_const pts (pts.map fun r => r.vertical_speed_mh) t0 t0half c horig i
    have hf := forwardScan_const t0 t0half c
      ((pts.zip (pts.map fun r => r.vertical_speed_mh)).drop (i + 1)) hzip
    set B := backScan pts (pts.map fun r => r.vertical_speed_mh) t0 t0half i with hBdef
    set Fv := forwardScan t0 t0half ((pts.zip (pts.map fun r => r.vertical_speed_mh)).drop (i + 1)) with hFdef
    by_cases hcount : 0 < B.2 + Fv.2
    · rw [if_pos hcount]
      have hsum : B.1 + Fv.1 = c * ((B.2 + Fv.2 : ℕ) : ℚ) := by
        rw [hb, hf]
        push_cast
        ring
      have hne : ((B.2 + Fv.2 : ℕ) : ℚ) ≠ 0 := by
        exact_mod_cast Nat.pos_iff_ne_zero.mp hcount
      simp only [hsum]
      rw [mul_div_assoc, div_self hne, mul_one]
    · rw [if_neg hcount]
      exact hp

/-- C4 helper: the snapshot hypothesis follows from a constant channel. -/
theorem const_channel_orig (pts : List TrackPoint) (c : ℚ)
    (hc : ∀ p ∈ pts, p.vertical_speed_mh = some c) :
    ∀ (k : ℕ) (q : TrackPoint), pts.get? k = some q →
      (pts.map fun r => r.vertical_speed_mh).getD k none = some c := by
  intro k q hq
  rw [orig_getD pts k q hq]
  exact hc q (List.get?_mem hq)

/-- C4 helper: every zipped snapshot pair of a constant channel carries c. -/
theorem const_channel_zip (pts : List TrackPoint) (c : ℚ)
    (hc : ∀ p ∈ pts, p.vertical_speed_mh = some c) (n : ℕ) :
    ∀ x ∈ (pts.zip (pts.map fun r => r.vertical_speed_mh)).drop n,
      x.2 = some c := by
  intro x hx
  have hzip := List.mem_of_mem_drop hx
  have h2 := (List.of_mem_zip hzip).2
  obtain ⟨q, hq, hq2⟩ := List.mem_map.mp h2
  rw [← hq2]
  exact hc q hq

/-- A minimal point with a vertical speed channel and a timestamp. -/
def mkVsPoint (v t : ℚ) : TrackPoint :=
  { latitude := 0, longitude := 0, timestamp := some t,
    vertical_speed_mh := some v }

/-- A two point track with channel values a and b, the second point d
seconds after the first. -/
def twoPtTrack (a b t0 d : ℚ) : Track :=
  { name := "w", track_type := "igc",
    points := [mkVsPoint a t0, mkVsPoint b (t0 + d)] }

/-- C4: the 15 second windowed temporal average leaves a constant
vertical-speed channel constant on every fully timestamped track, and the
window boundary is strict: in a two point track the neighbor is included in
the mean exactly when its time delta does not exceed the half window, so a
neighbor exactly at the half window boundary is averaged in while one
strictly beyond it leaves both values untouched. -/
theorem window_average_const_boundary :
    (∀ (t : Track) (c : ℚ),
      (∀ p ∈ t.points, p.timestamp ≠ none ∧ p.vertical_speed_mh = some c) →
      ∀ q ∈ (applyWindowAveraging t).points, q.vertical_speed_mh = some c) ∧
    (∀ (a b t0 δ : ℚ), 0 ≤ δ →
      (δ ≤ 15 / 2 →
        ((applyWindowAveraging (twoPtTrack a b t0 δ)).points.map
          fun q => q.vertical_speed_mh) =
          [some ((a + b) / 2), some ((a + b) / 2)]) ∧
      (15 / 2 < δ →
        ((applyWindowAveraging (twoPtTrack a b t0 δ)).points.map
          fun q => q.vertical_speed_mh) = [some a, some b])) := by
  constructor
  · intro t c hc q hq
    unfold applyWindowAveraging at hq
    by_cases hlen : t.points.length < 2
    · rw [if_pos hlen] at hq
      exact (hc q hq).2
    · rw [if_neg hlen] at hq
      simp only at hq
      unfold averageVerticalSpeed at hq
      by_cases hex : ∃ p ∈ t.points, p.vertical_speed_mh ≠ none ∧ p.timestamp ≠ none
      · rw [if_neg (not_not_intro hex)] at hq
        obtain ⟨i, p, hip, rfl⟩ := mem_mapWithIndex _ _ _ _ hq
        exact avgPoint_const t.points (15 / 2) (0 + i) p c
          (hc p (List.get?_mem hip)).2
          (const_channel_orig t.points c fun r hr => (hc r hr).2)
          (const_channel_zip t.points c (fun r hr => (hc r hr).2) (0 + i + 1))
      · rw [if_pos hex] at hq
        exact (hc q hq).2
  · intro a b t0 δ hδ
    constructor
    · intro hle
      have hc : ¬ (15 / 2 : ℚ) < δ := not_lt.mpr hle
      simp only [applyWindowAveraging, twoPtTrack]
      norm_num
      simp only [averageVerticalSpeed, mkVsPoint]
      norm_num
      simp only [mapWithIndex, avgPoint, backScan, backStep, forwardScan, forwardStep]
      norm_num [abs_of_nonneg hδ, hc]
      rw [if_neg (by intro hcond; exact absurd (hcond.1 (by simp)) (by simp))]
      simp
    · intro hgt
      simp only [applyWindowAveraging, twoPtTrack]
      norm_num
      simp only [averageVerticalSpeed, mkVsPoint]
      norm_num
      simp only [mapWithIndex, avgPoint, backScan, backStep, forwardScan, forwardStep]
      norm_num [abs_of_nonneg hδ, hgt]
      rw [if_neg (by intro hcond; exact absurd (hcond.1 (by simp)) (by simp))]
      simp

/-- Witness for window_average_const_boundary: two points exactly one half
window apart are averaged together. -/
theorem window_average_const_boundary_witness :
    (0 : ℚ) ≤ 15 / 2 ∧ (15 / 2 : ℚ) ≤ 15 / 2 ∧
    ((applyWindowAveraging (twoPtTrack 2 4 0 (15 / 2))).points.map
      fun q => q.vertical_speed_mh) = [some 3, some 3] := by
  refine ⟨by norm_num, by norm_num, ?_⟩
  have h := (window_average_const_boundary.2 2 4 0 (15 / 2) (by norm_num)).1 (le_refl _)
  norm_num at h
  exact h

/-- C10: for every point that has both the vertical speed channel and a
timestamp, the backward scan includes the point itself (its own time delta
is 0, which never exceeds the non-negative half window, and its snapshot
value is present), so the window count is at least 1, the mean is
well-defined, and the untouched branch for a zero count is unreachable:
the point is always reassigned the window mean. -/
theorem window_count_positive (ws : ℚ) (pts : List TrackPoint) (i : ℕ)
    (p : TrackPoint) (t0 v : ℚ) (hws : 0 ≤ ws)
    (hp : pts.get? i = some p) (hmh : p.vertical_speed_mh = some v)
    (hts : p.timestamp = some t0) :
    0 < (backScan pts (pts.map fun q => q.vertical_speed_mh) t0 (ws / 2) i).2 +
        (forwardScan t0 (ws / 2)
          (((pts.zip (pts.map fun q => q.vertical_speed_mh))).drop (i + 1))).2 ∧
    ((averageVerticalSpeed ws pts).get? i).map (fun q => q.vertical_speed_mh) =
      some (some
        (((backScan pts (pts.map fun q => q.vertical_speed_mh) t0 (ws / 2) i).1 +
          (forwardScan t0 (ws / 2)
            (((pts.zip (pts.map fun q => q.vertical_speed_mh))).drop (i + 1))).1) /
         (((backScan pts (pts.map fun q => q.vertical_speed_mh) t0 (ws / 2) i).2 +
           (forwardScan t0 (ws / 2)
             (((pts.zip (pts.map fun q => q.vertical_speed_mh))).drop (i + 1))).2 : ℕ) : ℚ))) := by
  have hvorig : (pts.map fun q => q.vertical_speed_mh).getD i none = some v := by
    rw [orig_getD pts i p hp]
    exact hmh
  have hhalf : (0 : ℚ) ≤ ws / 2 := by positivity
  have hcount := backScan_count_pos pts (pts.map fun q => q.vertical_speed_mh)
    t0 (ws / 2) i p v hp hts hvorig hhalf
  have hpos : 0 < (backScan pts (pts.map fun q => q.vertical_speed_mh) t0 (ws / 2) i).2 +
      (forwardScan t0 (ws / 2)
        (((pts.zip (pts.map fun q => q.vertical_speed_mh))).drop (i + 1))).2 := by
    omega
  refine ⟨hpos, ?_⟩
  rw [averageVerticalSpeed_get ws pts i p hp (by rw [hmh]; simp) (by rw [hts]; simp)]
  simp only [avgPoint, hmh, hts, Option.map_some]
  rw [if_pos hpos]
  simp

/-- Witness for window_count_positive: a concrete two point track where the
eligible first point is reassigned the window mean. -/
theorem window_count_positive_witness :
    (0 : ℚ) ≤ 15 ∧
    [mkVsPoint 2 0, mkVsPoint 4 3].get? 0 = some (mkVsPoint 2 0) ∧
    (mkVsPoint 2 0).vertical_speed_mh = some 2 ∧
    (mkVsPoint 2 0).timestamp = some 0 ∧
    ((averageVerticalSpeed 15 [mkVsPoint 2 0, mkVsPoint 4 3]).get? 0).map
      (fun q => q.vertical_speed_mh) = some (some 3) := by
  refine ⟨by decide, by decide, by decide, by decide, ?_⟩
  have h2 := (window_count_positive 15 [mkVsPoint 2 0, mkVsPoint 4 3] 0
    (mkVsPoint 2 0) 0 2 (by decide) (by decide) (by decide) (by decide)).2
  rw [h2]
  norm_num [backScan, backStep, forwardScan, forwardStep, mkVsPoint]

/-- The snapshot values of the in-window points around index i: those found
by the backward scan and those found by the forward scan, all read from the
snapshot of the input channel. -/
def snapshotVals (ws : ℚ) (pts : List TrackPoint) (t0 : ℚ) (i : ℕ) : List ℚ :=
  backVals pts (pts.map fun q => q.vertical_speed_mh) t0 (ws / 2) i ++
    forwardVals t0 (ws / 2)
      ((pts.zip (pts.map fun q => q.vertical_speed_mh)).drop (i + 1))

/-- C5: each eligible point is assigned the arithmetic mean of the
pre-pass snapshot values of the in-window points — the formula depends only
on the input point list, never on values modified earlier in the same pass,
so the result is independent of processing order — the m per s companion is
recomputed as the new m per h value divided by 3600, and a point with no
timestamp encountered mid-scan is skipped without terminating either
scan. -/
theorem window_mean_snapshot (ws : ℚ) (pts : List TrackPoint) (i : ℕ)
    (p : TrackPoint) (t0 v : ℚ) (hws : 0 ≤ ws)
    (hp : pts.get? i = some p) (hmh : p.vertical_speed_mh = some v)
    (hts : p.timestamp = some t0) :
    snapshotVals ws pts t0 i ≠ [] ∧
    ((averageVerticalSpeed ws pts).get? i).map (fun q => q.vertical_speed_mh) =
      some (some ((snapshotVals ws pts t0 i).sum /
        ((snapshotVals ws pts t0 i).length : ℚ))) ∧
    ((averageVerticalSpeed ws pts).get? i).map (fun q => q.vertical_speed_ms) =
      some (some ((snapshotVals ws pts t0 i).sum /
        ((snapshotVals ws pts t0 i).length : ℚ) / 3600)) ∧
    (∀ (q : TrackPoint) (ov : Option ℚ) (rest : List (TrackPoint × Option ℚ))
      (t1 h1 : ℚ), q.timestamp = none →
      forwardScan t1 h1 ((q, ov) :: rest) = forwardScan t1 h1 rest) ∧
    (∀ (pts2 : List TrackPoint) (orig2 : List (Option ℚ)) (t1 h1 : ℚ)
      (j : ℕ) (q : TrackPoint), pts2.get? (j + 1) = some q →
      q.timestamp = none →
      backScan pts2 orig2 t1 h1 (j + 1) = backScan pts2 orig2 t1 h1 j) := by
  have hvorig : (pts.map fun q => q.vertical_speed_mh).getD i none = some v := by
    rw [orig_getD pts i p hp]
    exact hmh
  have hhalf : (0 : ℚ) ≤ ws / 2 := by positivity
  have hcount := backScan_count_pos pts (pts.map fun q => q.vertical_speed_mh)
    t0 (ws / 2) i p v hp hts hvorig hhalf
  have hbc := backScan_eq_vals pts (pts.map fun q => q.vertical_speed_mh) t0 (ws / 2) i
  have hfc := forwardScan_eq_vals t0 (ws / 2)
    ((pts.zip (pts.map fun q => q.vertical_speed_mh)).drop (i + 1))
  have hb1 : (backScan pts (pts.map fun q => q.vertical_speed_mh) t0 (ws / 2) i).1 =
      (backVals pts (pts.map fun q => q.vertical_speed_mh) t0 (ws / 2) i).sum :=
    congrArg Prod.fst hbc
  have hb2 : (backScan pts (pts.map fun q => q.vertical_speed_mh) t0 (ws / 2) i).2 =
      (backVals pts (pts.map fun q => q.vertical_speed_mh) t0 (ws / 2) i).length :=
    congrArg Prod.snd hbc
  have hf1 : (forwardScan t0 (ws / 2)
      ((pts.zip (pts.map fun q => q.vertical_speed_mh)).drop (i + 1))).1 =
      (forwardVals t0 (ws / 2)
        ((pts.zip (pts.map fun q => q.vertical_speed_mh)).drop (i + 1))).sum :=
    congrArg Prod.fst hfc
  have hf2 : (forwardScan t0 (ws / 2)
      ((pts.zip (pts.map fun q => q.vertical_speed_mh)).drop (i + 1))).2 =
      (forwardVals t0 (ws / 2)
        ((pts.zip (pts.map fun q => q.vertical_speed_mh)).drop (i + 1))).length :=
    congrArg Prod.snd hfc
  have hlen : (snapshotVals ws pts t0 i).length =
      (backScan pts (pts.map fun q => q.vertical_speed_mh) t0 (ws / 2) i).2 +
      (forwardScan t0 (ws / 2)
        ((pts.zip (pts.map fun q => q.vertical_speed_mh)).drop (i + 1))).2 := by
    rw [snapshotVals, List.length_append, hb2, hf2]
  have hsum : (snapshotVals ws pts t0 i).sum =
      (backScan pts (pts.map fun q => q.vertical_speed_mh) t0 (ws / 2) i).1 +
      (forwardScan t0 (ws / 2)
        ((pts.zip (pts.map fun q => q.vertical_speed_mh)).drop (i + 1))).1 := by
    rw [snapshotVals, List.sum_append, hb1, hf1]
  have hpos : 0 < (backScan pts (pts.map fun q => q.vertical_speed_mh) t0 (ws / 2) i).2 +
      (forwardScan t0 (ws / 2)
        ((pts.zip (pts.map fun q => q.vertical_speed_mh)).drop (i + 1))).2 := by
    omega
  refine ⟨?_, ?_, ?_, ?_, ?_⟩
  · intro hnil
    have := hlen
    rw [hnil] at this
    simp at this
    omega
  · rw [averageVerticalSpeed_get ws pts i p hp (by rw [hmh]; simp) (by rw [hts]; simp)]
    simp only [avgPoint, hmh, hts, Option.map_some]
    rw [if_pos hpos]
    simp
    rw [hsum, hlen]
    push_cast
    ring_nf
  · rw [averageVerticalSpeed_get ws pts i p hp (by rw [hmh]; simp) (by rw [hts]; simp)]
    simp only [avgPoint, hmh, hts, Option.map_some]
    rw [if_pos hpos]
    simp
    rw [hsum, hlen]
    push_cast
    ring_nf
  · intro q ov rest t1 h1 hq
    show forwardStep t1 h1 q ov (forwardScan t1 h1 rest) = forwardScan t1 h1 rest
    simp only [forwardStep, hq]
  · intro pts2 orig2 t1 h1 j q hq hqts
    show backStep pts2 orig2 t1 h1 (j + 1) (backScan pts2 orig2 t1 h1 j) =
      backScan pts2 orig2 t1 h1 j
    simp only [backStep, hq, hqts]

/-- Witness for window_mean_snapshot: the second point of a concrete two
point track receives the mean of the two snapshot values. -/
theorem window_mean_snapshot_witness :
    (0 : ℚ) ≤ 15 ∧
    [mkVsPoint 5 0, mkVsPoint 7 4].get? 1 = some (mkVsPoint 7 4) ∧
    (mkVsPoint 7 4).vertical_speed_mh = some 7 ∧
    (mkVsPoint 7 4).timestamp = some 4 ∧
    ((averageVerticalSpeed 15 [mkVsPoint 5 0, mkVsPoint 7 4]).get? 1).map
      (fun q => q.vertical_speed_mh) = some (some 6) := by
  refine ⟨by decide, by decide, by decide, by decide, ?_⟩
  have h2 := (window_mean_snapshot 15 [mkVsPoint 5 0, mkVsPoint 7 4] 1
    (mkVsPoint 7 4) 4 7 (by decide) (by decide) (by decide) (by decide)).2.1
  rw [h2]
  norm_num [snapshotVals, backVals, backValsStep, forwardVals, forwardValsStep,
    mkVsPoint]

/-- The speed pass with original predecessors, indexed: entry j pairs
element j of prev :: l with element j of l. -/
theorem speedMap_get (F : MathOracle) (prev : TrackPoint) (l : List TrackPoint)
    (j : ℕ) :
    (speedMap F prev l).get? j =
      match (prev :: l).get? j, l.get? j with
      | some a, some b => some (calcSpeedPoint F a b)
      | _, _ => none := by
  induction l generalizing prev j with
  | nil => cases j <;> simp [speedMap]
  | cons p ps ih =>
    cases j with
    | zero => simp [speedMap]
    | succ j =>
      simp only [speedMap, List.get?_cons_succ]
      exact ih p j

/-- calculateSpeed does nothing when no point needs a speed. -/
theorem calculateSpeed_noop (F : MathOracle) (t : Track)
    (hnot : ¬ ∃ p ∈ t.points, p.speed = none ∧ p.timestamp ≠ none) :
    calculateSpeed F t = t := by
  unfold calculateSpeed
  split
  · rfl
  · rfl

/-- The full shape of the calculateSpeed output on a track of at least two
points that needs the pass: the pair pass with original predecessors,
followed by the backfill of the first point. -/
theorem calculateSpeed_shape (F : MathOracle) (q0 p1 : TrackPoint)
    (rest : List TrackPoint) (t : Track) (hpts : t.points = q0 :: p1 :: rest)
    (hneed : ∃ p ∈ t.points, p.speed = none ∧ p.timestamp ≠ none) :
    (calculateSpeed F t).points =
      (if q0.speed = none ∧ (calcSpeedPoint F q0 p1).speed ≠ none then
        { q0 with speed := (calcSpeedPoint F q0 p1).speed } ::
          calcSpeedPoint F q0 p1 :: speedMap F p1 rest
      else q0 :: calcSpeedPoint F q0 p1 :: speedMap F p1 rest) := by
  rw [hpts] at hneed
  unfold calculateSpeed
  rw [hpts]
  rw [if_neg (by simp)]
  rw [if_neg (not_not_intro hneed)]
  simp only [speedPassAux_eq_speedMap]
  rfl

/-- The output entry at a positive index is the pair update of the original
consecutive pair at that index. -/
theorem calculateSpeed_get_succ (F : MathOracle) (t : Track)
    (h2 : 2 ≤ t.points.length)
    (hneed : ∃ p ∈ t.points, p.speed = none ∧ p.timestamp ≠ none)
    (i : ℕ) (hi : 1 ≤ i) (p1 p2 : TrackPoint)
    (hp1 : t.points.get? (i - 1) = some p1)
    (hp2 : t.points.get? i = some p2) :
    (calculateSpeed F t).points.get? i = some (calcSpeedPoint F p1 p2) := by
  obtain ⟨q0, rest0, hq⟩ : ∃ q0 rest0, t.points = q0 :: rest0 := by
    cases hordered : t.points with
    | nil => rw [hordered] at h2; simp at h2
    | cons a as => exact ⟨a, as, rfl⟩
  obtain ⟨q1, rest, hq1⟩ : ∃ q1 rest, rest0 = q1 :: rest := by
    cases hordered : rest0 with
    | nil => rw [hq, hordered] at h2; simp at h2
    | cons a as => exact ⟨a, as, rfl⟩
  rw [hq1] at hq
  rw [calculateSpeed_shape F q0 q1 rest t hq hneed]
  obtain ⟨j, rfl⟩ : ∃ j, i = j + 1 := ⟨i - 1, by omega⟩
  rw [hq] at hp1 hp2
  have hstep : ∀ x : TrackPoint,
      (x :: calcSpeedPoint F q0 q1 :: speedMap F q1 rest).get? (j + 1) =
        (calcSpeedPoint F q0 q1 :: speedMap F q1 rest).get? j := fun x => rfl
  split
  all_goals rw [hstep]
  all_goals cases j with
  | zero =>
    simp at hp1 hp2
    subst hp1
    subst hp2
    rfl
  | succ k =>
    have hp1b : (q1 :: rest).get? k = some p1 := by
      have hidx : (k + 1 + 1 - 1 : ℕ) = k + 1 := by omega
      rw [hidx] at hp1
      simpa using hp1
    have hp2b : rest.get? k = some p2 := by simpa using hp2
    rw [show (calcSpeedPoint F q0 q1 :: speedMap F q1 rest).get? (k + 1) =
      (speedMap F q1 rest).get? k from rfl]
    rw [speedMap_get]
    rw [hp1b, hp2b]

/-- A math oracle instance used for concrete evaluations; the verified
properties hold for every oracle. -/
def trivialOracle : MathOracle :=
  { pi := 0, sin := id, cos := id, asin := id, sqrt := id }

/-- Two points with no timestamps: the first has no speed, the second has
speed 10. No point has both a missing speed and a timestamp, so the
calculation pass and its backfill never run. -/
def exSpeedTrack : Track :=
  { name := "s", track_type := "gpx",
    points := [{ latitude := 0, longitude := 0 },
               { latitude := 0, longitude := 0, speed := some 10 }] }

/-- C3 counterexample: on a two point track whose first point has no speed
and whose second point has speed 10, but where no point has a timestamp,
Track.calculate_speed returns early and never copies the second speed
backward: the first speed stays unset although the second is set, against
the unconditional backward copy the claim states. -/
theorem calculate_speed_backfill_cex :
    2 ≤ exSpeedTrack.points.length ∧
    (exSpeedTrack.points.map fun p => p.speed) = [none, some 10] ∧
    ((calculateSpeed trivialOracle exSpeedTrack).points.map fun p => p.speed) =
      [none, some 10] := by
  decide

/-- C3 (amended): after Track.calculate_speed on a track with at least two
points, every consecutive pair whose second point had no speed and whose
timestamps are present with strictly positive delta receives speed
haversine distance over seconds times 3.6; a pair with a missing timestamp
or non-positive delta leaves the speed of its second point untouched; and
provided the calculation pass runs at all (some point has speed unset and
a timestamp present), a first point still unset after the pass receives
the speed of the second point when that one is set. -/
theorem calculate_speed_pairs (F : MathOracle) (t : Track) (i : ℕ)
    (p1 p2 : TrackPoint) (h2 : 2 ≤ t.points.length) (hi : 1 ≤ i)
    (hp1 : t.points.get? (i - 1) = some p1)
    (hp2 : t.points.get? i = some p2) :
    (∀ t1 t2 : ℚ, p2.speed = none → p1.timestamp = some t1 →
      p2.timestamp = some t2 → 0 < t2 - t1 →
      ((calculateSpeed F t).points.get? i).map (fun q => q.speed) =
        some (some (haversineM F p1 p2 / (t2 - t1) * (3.6 : ℚ)))) ∧
    ((p1.timestamp = none ∨ p2.timestamp = none ∨
        (∀ t1 t2 : ℚ, p1.timestamp = some t1 → p2.timestamp = some t2 →
          t2 - t1 ≤ 0)) →
      ((calculateSpeed F t).points.get? i).map (fun q => q.speed) =
        some p2.speed) ∧
    ((∃ p ∈ t.points, p.speed = none ∧ p.timestamp ≠ none) →
      ∀ q0 : TrackPoint, t.points.get? 0 = some q0 → q0.speed = none →
      ∀ v : ℚ, ((calculateSpeed F t).points.get? 1).map (fun q => q.speed) =
        some (some v) →
      ((calculateSpeed F t).points.get? 0).map (fun q => q.speed) =
        some (some v)) := by
  refine ⟨?_, ?_, ?_⟩
  · intro t1 t2 hs ht1 ht2 hdt
    have hneed : ∃ p ∈ t.points, p.speed = none ∧ p.timestamp ≠ none :=
      ⟨p2, List.get?_mem hp2, hs, by rw [ht2]; simp⟩
    rw [calculateSpeed_get_succ F t h2 hneed i hi p1 p2 hp1 hp2]
    simp only [Option.map_some', Option.some.injEq]
    simp only [calcSpeedPoint, hs, ht1, ht2]
    rw [if_pos hdt]
  · intro hcond
    by_cases hneed : ∃ p ∈ t.points, p.speed = none ∧ p.timestamp ≠ none
    · rw [calculateSpeed_get_succ F t h2 hneed i hi p1 p2 hp1 hp2]
      simp only [Option.map_some', Option.some.injEq]
      cases hsp : p2.speed with
      | some w => simp [calcSpeedPoint, hsp]
      | none =>
        cases ht1 : p1.timestamp with
        | none => simp [calcSpeedPoint, hsp, ht1]
        | some t1 =>
          cases ht2 : p2.timestamp with
          | none => simp [calcSpeedPoint, hsp, ht1, ht2]
          | some t2 =>
            rcases hcond with h | h | h
            · simp [h] at ht1
            · simp [h] at ht2
            · have hdt := h t1 t2 ht1 ht2
              simp only [calcSpeedPoint, hsp, ht1, ht2]
              rw [if_neg (by simpa using not_lt.mpr hdt)]
              rw [hsp]
    · rw [calculateSpeed_noop F t hneed, hp2]
      rfl
  · intro hneed q0 hq0 hq0s v hv1
    obtain ⟨q0b, rest0, hq⟩ : ∃ a as, t.points = a :: as := by
      cases hordered : t.points with
      | nil => rw [hordered] at h2; simp at h2
      | cons a as => exact ⟨a, as, rfl⟩
    obtain ⟨q1, rest, hq1⟩ : ∃ b bs, rest0 = b :: bs := by
      cases hordered : rest0 with
      | nil => rw [hq, hordered] at h2; simp at h2
      | cons b bs => exact ⟨b, bs, rfl⟩
    rw [hq1] at hq
    have hq0b : q0b = q0 := by
      rw [hq] at hq0
      exact Option.some.inj hq0
    rw [hq0b] at hq
    rw [calculateSpeed_shape F q0 q1 rest t hq hneed] at hv1 ⊢
    by_cases hcnd : q0.speed = none ∧ (calcSpeedPoint F q0 q1).speed ≠ none
    · rw [if_pos hcnd] at hv1 ⊢
      simp only [List.get?_cons_succ, List.get?_cons_zero, Option.map_some',
        Option.some.injEq] at hv1 ⊢
      rw [hv1]
    · rw [if_neg hcnd] at hv1 ⊢
      push_neg at hcnd
      have hcs : (calcSpeedPoint F q0 q1).speed = none := hcnd hq0s
      simp only [List.get?_cons_succ, List.get?_cons_zero, Option.map_some',
        Option.some.injEq] at hv1
      rw [hcs] at hv1
      cases hv1

/-- First point of the concrete speed-derivation track. -/
def exSpP1 : TrackPoint := { latitude := 0, longitude := 0, timestamp := some 0 }

/-- Second point of the concrete speed-derivation track, 10 seconds later. -/
def exSpP2 : TrackPoint :=
  { latitude := 0, longitude := 1 / 1000, timestamp := some 10 }

/-- Concrete two point track with timestamps and no speeds. -/
def exSpeedTrack2 : Track :=
  { name := "s2", track_type := "gpx", points := [exSpP1, exSpP2] }

/-- Witness for calculate_speed_pairs: the second point of a concrete
timestamped pair receives the haversine speed. -/
theorem calculate_speed_pairs_witness :
    2 ≤ exSpeedTrack2.points.length ∧
    exSpeedTrack2.points.get? 0 = some exSpP1 ∧
    exSpeedTrack2.points.get? 1 = some exSpP2 ∧
    exSpP2.speed = none ∧ exSpP1.timestamp = some 0 ∧
    exSpP2.timestamp = some 10 ∧ (0 : ℚ) < 10 - 0 ∧
    ((calculateSpeed trivialOracle exSpeedTrack2).points.get? 1).map
      (fun q => q.speed) =
      some (some (haversineM trivialOracle exSpP1 exSpP2 / (10 - 0) * (3.6 : ℚ))) :=
  ⟨by decide, rfl, rfl, rfl, rfl, rfl, by norm_num,
    (calculate_speed_pairs trivialOracle exSpeedTrack2 1 exSpP1 exSpP2 (by decide)
      (by decide) rfl rfl).1 0 10 rfl rfl rfl (by norm_num)⟩

/-- Points of the concrete misalignment track: the first and third carry
timestamps, the middle one does not; altitudes identify the points. -/
def exCvP0 : TrackPoint :=
  { latitude := 0, longitude := 0, altitude := some 100, timestamp := some 0 }

/-- Middle point with no timestamp. -/
def exCvP1 : TrackPoint :=
  { latitude := 0, longitude := 0, altitude := some 200 }

/-- Third point, two minutes after the first. -/
def exCvP2 : TrackPoint :=
  { latitude := 0, longitude := 0, altitude := some 300, timestamp := some 120 }

/-- Concrete track whose middle point lacks a timestamp. -/
def exCurveTrack : Track :=
  { name := "c", track_type := "gpx", points := [exCvP0, exCvP1, exCvP2] }

/-- C2 counterexample: in Time mode the x series skips the untimestamped
middle point, so it is shorter than the point list, and the positional zip
pairs the x value of the third point (2 minutes) with the y value of the
second point (altitude 200): a plotted pair mixes two different track
points, against the claimed index pairing over the full point list. -/
theorem curve_time_axis_cex :
    (getXValues trivialOracle exCurveTrack "Time").length = 2 ∧
    exCurveTrack.points.length = 3 ∧
    ((getXValues trivialOracle exCurveTrack "Time").zip
      (getYValues exCurveTrack YAttr.altitude)) =
      [(0, some 100), (2, some 200)] ∧
    (exCurveTrack.points.get? 1).map (yValue YAttr.altitude) = some (some 200) ∧
    (exCurveTrack.points.get? 2).map (yValue YAttr.altitude) = some (some 300) ∧
    (exCurveTrack.points.get? 2).map
      (fun p => (p.timestamp.getD 0 - 0) / 60) = some 2 := by
  refine ⟨?_, by decide, ?_, by decide, by decide, ?_⟩
  · unfold getXValues
    rw [if_neg (by decide), if_pos rfl]
    norm_num [exCurveTrack, exCvP0, exCvP1, exCvP2]
  · unfold getXValues
    rw [if_neg (by decide), if_pos rfl]
    norm_num [getYValues, yValue, exCurveTrack, exCvP0, exCvP1, exCvP2]
  · norm_num [exCurveTrack, exCvP2]

/-- C2 (amended): in Time mode, when the first point has a timestamp and
every point has one, each x value is the minutes elapsed since the first
timestamp and the x and y series are paired by index over the full point
list, every pair coming from the same track point; when the track is empty
or its first point lacks a timestamp, the x values fall back to the point
index. When the first point has a timestamp but a later point lacks one,
the x series covers only the timestamped points and the positional pairing
can mix points, as the counterexample shows. -/
theorem curve_time_axis (F : MathOracle) (t : Track) :
    (∀ (p0 : TrackPoint) (b : ℚ), t.points.head? = some p0 →
      p0.timestamp = some b →
      (∀ p ∈ t.points, p.timestamp.isSome = true) →
      getXValues F t "Time" =
        t.points.map (fun p => (p.timestamp.getD 0 - b) / 60) ∧
      (∀ (a : YAttr) (i : ℕ) (p : TrackPoint), t.points.get? i = some p →
        ((getXValues F t "Time").zip (getYValues t a)).get? i =
          some ((p.timestamp.getD 0 - b) / 60, yValue a p))) ∧
    ((t.points = [] ∨ ∃ p0, t.points.head? = some p0 ∧ p0.timestamp = none) →
      getXValues F t "Time" = (List.range t.points.length).map fun n => (n : ℚ)) := by
  constructor
  · intro p0 b hhead hts hall
    have hx : getXValues F t "Time" =
        t.points.map (fun p => (p.timestamp.getD 0 - b) / 60) := by
      unfold getXValues
      rw [if_neg (by decide), if_pos rfl]
      cases hpts : t.points with
      | nil => rw [hpts] at hhead; simp at hhead
      | cons q rest =>
        rw [hpts] at hhead
        have hq : q = p0 := by simpa using hhead
        subst hq
        simp only [hts]
        rw [List.filter_eq_self.mpr fun p hp => hall p (by rw [hpts]; exact hp)]
    refine ⟨hx, ?_⟩
    intro a i p hp
    rw [hx]
    show ((t.points.map fun r => (r.timestamp.getD 0 - b) / 60).zip
      (t.points.map (yValue a))).get? i = _
    rw [List.zip_map']
    rw [List.get?_eq_getElem?, List.getElem?_map]
    rw [← List.get?_eq_getElem?, hp]
    rfl
  · intro hcase
    unfold getXValues
    rw [if_neg (by decide), if_pos rfl]
    rcases hcase with hnil | ⟨p0, hhead, hts⟩
    · cases hpts : t.points with
      | nil => rfl
      | cons q rest => rw [hpts] at hnil; cases hnil
    · cases hpts : t.points with
      | nil => rfl
      | cons q rest =>
        rw [hpts] at hhead
        have hq : q = p0 := by simpa using hhead
        subst hq
        simp only [hts]

/-- First point of the fully timestamped concrete curve track. -/
def exCvQ0 : TrackPoint :=
  { latitude := 0, longitude := 0, altitude := some 10, timestamp := some 0 }

/-- Second point of the fully timestamped concrete curve track. -/
def exCvQ1 : TrackPoint :=
  { latitude := 0, longitude := 0, altitude := some 20, timestamp := some 60 }

/-- Concrete track in which every point has a timestamp. -/
def exCurveTrack2 : Track :=
  { name := "c2", track_type := "gpx", points := [exCvQ0, exCvQ1] }

/-- Witness for curve_time_axis on a fully timestamped two point track. -/
theorem curve_time_axis_witness :
    exCurveTrack2.points.head? = some exCvQ0 ∧
    exCvQ0.timestamp = some 0 ∧
    (∀ p ∈ exCurveTrack2.points, p.timestamp.isSome = true) ∧
    getXValues trivialOracle exCurveTrack2 "Time" =
      exCurveTrack2.points.map (fun p => (p.timestamp.getD 0 - 0) / 60) :=
  ⟨rfl, rfl, by decide,
    ((curve_time_axis trivialOracle exCurveTrack2).1 exCvQ0 0 rfl rfl (by decide)).1⟩
